import Mathlib

/-!
Verification of the conversational incident-intake engine in
`services/ehs_chatbot.py` (classes `IncidentExtractor`,
`EnhancedSmartEHSChatbot`, `EnhancedFiveWhysManager`).

The Python code is shallowly embedded: each method becomes a pure Lean
function on an explicit `Conversation` state; the in-place mutations of the
Python object become functional updates; Python dicts keyed by strings become
association lists with first-occurrence lookup and insertion-order append;
the one uncaught exception the code can raise (a `KeyError` on the missing
depot prompt keys) is modelled by an `Option` result, `none` standing for an
exception escaping `process_message`.

Float confidences (sums of 0.3/0.2/0.1 increments capped at 1.0) are
modelled as natural numbers counting tenths.  The only comparisons the code
performs on them are `> 0.5` and the sort comparisons between such sums; for
every sum of increments actually produced along the evaluated inputs the
float and the scaled-integer comparison agree (e.g. in CPython
`0.3 + 0.2 == 0.5` and `0.3 + 0.2 + 0.1 == 0.6` hold exactly).
-/

-- ---------------------------------------------------------------------------
-- Python string primitives

def MAX_FREEFORM_LEN : Nat := 4000

/-- Characters stripped by Python `str.strip()` (ASCII whitespace). -/
def isPySpace (c : Char) : Bool :=
  c = ' ' || c = '\t' || c = '\n' || c = '\r' || c = '\x0b' || c = '\x0c'

/-- Python `str.strip()`. -/
def pyStrip (s : String) : String :=
  String.mk (((s.data.dropWhile isPySpace).reverse.dropWhile isPySpace).reverse)

def asciiLower (c : Char) : Char :=
  if 'A' ≤ c && c ≤ 'Z' then Char.ofNat (c.toNat + 32) else c

def asciiUpper (c : Char) : Char :=
  if 'a' ≤ c && c ≤ 'z' then Char.ofNat (c.toNat - 32) else c

/-- Python `str.lower()` (ASCII inputs). -/
def pyLower (s : String) : String :=
  String.mk (s.data.map asciiLower)

def isAsciiAlpha (c : Char) : Bool :=
  ('a' ≤ c && c ≤ 'z') || ('A' ≤ c && c ≤ 'Z')

/-- Word character of the regex `\w` / `\b` semantics (ASCII inputs). -/
def isWordChar (c : Char) : Bool :=
  isAsciiAlpha c || c.isDigit || c = '_'

def pyTitleGo : Bool → List Char → List Char
  | _, [] => []
  | prevAlpha, c :: rest =>
    (if isAsciiAlpha c then (if prevAlpha then asciiLower c else asciiUpper c) else c)
      :: pyTitleGo (isAsciiAlpha c) rest

/-- Python `str.title()` (ASCII inputs): first letter of each alphabetic run
uppercased, the rest lowercased. -/
def pyTitle (s : String) : String :=
  String.mk (pyTitleGo false s.data)

def containsGo (n : List Char) : List Char → Bool
  | [] => n.isPrefixOf []
  | c :: rest => n.isPrefixOf (c :: rest) || containsGo n rest

/-- Python substring test `needle in hay`. -/
def pyContains (hay needle : String) : Bool :=
  containsGo needle.data hay.data

/-- Python `s.startswith(p)`. -/
def pyStartsWith (s p : String) : Bool :=
  p.data.isPrefixOf s.data

-- ---------------------------------------------------------------------------
-- Validators (`_is_yes_no`, `_nonempty`, `_len_ok`, `_is_datetime`)

/-- `_is_yes_no`: `re.fullmatch(r"(?:yes|no|y|n)\b", text.strip().lower())`;
the trailing `\b` always holds at end of input after a letter. -/
def is_yes_no (text : String) : Bool :=
  let t := pyLower (pyStrip text)
  t = "yes" || t = "no" || t = "y" || t = "n"

/-- `_nonempty`. -/
def nonempty (text : String) : Bool :=
  pyStrip text ≠ ""

/-- `_len_ok`. -/
def len_ok (text : String) : Bool :=
  text.length ≤ MAX_FREEFORM_LEN

def digitVal (c : Char) : Nat := c.toNat - 48

def digitsVal (l : List Char) : Nat :=
  l.foldl (fun acc c => acc * 10 + digitVal c) 0

def isLeapYear (y : Nat) : Bool :=
  y % 4 = 0 && (y % 100 ≠ 0 || y % 400 = 0)

def daysInMonth (y m : Nat) : Nat :=
  if m = 2 then (if isLeapYear y then 29 else 28)
  else if m = 4 || m = 6 || m = 9 || m = 11 then 30
  else 31

/-- Calendar validity as checked by `datetime.date` (`MINYEAR = 1`). -/
def validDate (y m d : Nat) : Bool :=
  1 ≤ y && 1 ≤ m && m ≤ 12 && 1 ≤ d && d ≤ daysInMonth y m

/-- `_is_datetime`: strip; the literal `unknown`;
`re.fullmatch(r"\d{4}-\d{2}-\d{2}(?:[ T]\d{2}[:\-]\d{2})?", t)`; a trailing
`-mm` is rewritten to `:mm`; then `date.fromisoformat` / `strptime`
parse the result, which amounts to the calendar and clock checks below. -/
def is_datetime (text : String) : Bool :=
  let t := pyStrip text
  if t = "" then false
  else if pyLower t = "unknown" then true
  else
    match t.data with
    | [y1, y2, y3, y4, s1, mo1, mo2, s2, d1, d2] =>
      [y1, y2, y3, y4, mo1, mo2, d1, d2].all (·.isDigit) && s1 = '-' && s2 = '-' &&
        validDate (digitsVal [y1, y2, y3, y4]) (digitsVal [mo1, mo2]) (digitsVal [d1, d2])
    | [y1, y2, y3, y4, s1, mo1, mo2, s2, d1, d2, sep, h1, h2, c1, mi1, mi2] =>
      [y1, y2, y3, y4, mo1, mo2, d1, d2, h1, h2, mi1, mi2].all (·.isDigit) &&
        s1 = '-' && s2 = '-' && (sep = ' ' || sep = 'T') && (c1 = ':' || c1 = '-') &&
        validDate (digitsVal [y1, y2, y3, y4]) (digitsVal [mo1, mo2]) (digitsVal [d1, d2]) &&
        digitsVal [h1, h2] ≤ 23 && digitsVal [mi1, mi2] ≤ 59
    | _ => false

/-- The predicate component of the `VALIDATORS` table. -/
def validator_fn (name : String) : Option (String → Bool) :=
  if name = "yesno" then some is_yes_no
  else if name = "datetime" then some is_datetime
  else if name = "nonempty" then some nonempty
  else if name = "lenok" then some len_ok
  else none

/-- The error-message component of the `VALIDATORS` table, with the default
message of `VALIDATORS.get(validator, (None, "Invalid input."))`. -/
def validator_msg (name : String) : String :=
  if name = "yesno" then "Please answer Yes or No."
  else if name = "datetime" then
    "Please provide a date/time (YYYY-MM-DD or YYYY-MM-DD HH:MM) or \x27unknown\x27."
  else if name = "nonempty" then "This field is required."
  else if name = "lenok" then "Text too long (>4000 chars)."
  else "Invalid input."

-- ---------------------------------------------------------------------------
-- PROMPTS

def PROMPTS : List (String × String) := [
  ("event_type", "What type of event is this?"),
  ("when", "When did this happen?"),
  ("where", "Where did it happen? (site/facility and exact location)"),
  ("description", "Please describe what happened in detail. Include who was involved, what occurred, when it happened, and the sequence of events:"),
  ("immediate_actions", "What immediate actions were taken?"),
  ("witnesses", "List any witnesses (names and contact if known), or type \x27None\x27:"),
  ("enablon_confirm", "Was an Enablon report submitted?"),
  ("inj_name", "Injured/Ill Person — full name:"),
  ("inj_job_title", "Job title:"),
  ("inj_phone", "Phone number:"),
  ("inj_address", "Home address:"),
  ("inj_city", "City:"),
  ("inj_state", "State/Province:"),
  ("inj_zip", "ZIP/Postal code:"),
  ("inj_status", "Employee status:"),
  ("inj_dept", "Department (if applicable):"),
  ("inj_supervisor", "Supervisor name (if applicable):"),
  ("inj_body_part", "Body part affected:"),
  ("inj_injury_type", "Injury type:"),
  ("inj_severity", "Injury severity:"),
  ("inj_ppe", "PPE worn?"),
  ("inj_treatment", "Initial treatment given (if any):"),
  ("inj_law", "Was emergency service contacted?"),
  ("inj_law_details", "If contacted: agency, time called, report # / officer name (or \x27N/A\x27):"),
  ("veh_driver", "Vehicle Incident — driver/operator name:"),
  ("veh_unit", "Vehicle or equipment involved (plate/unit/ID):"),
  ("veh_damage", "Describe vehicle/equipment damage (if any):"),
  ("veh_third_party", "Any third-party vehicle/person involved?"),
  ("veh_third_party_details", "If yes, provide details (name, contact, insurer, damage)."),
  ("veh_photos", "Are photos/videos attached?"),
  ("env_involved_parties", "Environmental — involved parties (full names):"),
  ("env_roles", "Who was involved:"),
  ("spill_volume", "Spill volume:"),
  ("chemicals", "What chemical(s) were involved?"),
  ("env_description", "Environmental spill event description:"),
  ("env_corrective_action", "Immediate corrective action:"),
  ("env_enablon_confirm", "Was an Enablon report submitted?"),
  ("property_description", "Describe the property damage:"),
  ("property_cost", "Approximate total cost of loss and repairs:"),
  ("property_corrective_action", "Immediate corrective action taken:"),
  ("property_enablon_confirm", "Was an Enablon report submitted?"),
  ("security_event_types", "Type of Security Event:"),
  ("security_description", "Security Concern description:"),
  ("security_names_roles", "Name(s) and job title(s) or descriptions:"),
  ("security_party_type", "Are they:"),
  ("security_law", "Was law enforcement or emergency services contacted?"),
  ("security_law_details", "If contacted: agency, time called, report # or officer name (or \x27N/A\x27):"),
  ("security_footage", "Is security footage available?"),
  ("security_corrective_actions", "Corrective actions taken:"),
  ("security_enablon_confirm", "Was an Enablon report submitted?"),
  ("other_description", "Please describe the event:"),
  ("other_actions", "Immediate actions taken:"),
  ("why1", "Why 1?"),
  ("why2", "Why 2?"),
  ("why3", "Why 3?"),
  ("why4", "Why 4?"),
  ("why5", "Why 5?"),
  ("capa_action", "Corrective/Preventive Action (what will be done?):"),
  ("capa_owner", "CAPA owner (person responsible):"),
  ("capa_due", "CAPA due date:")]

/-- `PROMPTS[k]` for keys that are present (all the uses outside
`_enqueue_branch` are on present keys). -/
def promptOf (k : String) : String :=
  (PROMPTS.lookup k).getD ""

-- ---------------------------------------------------------------------------
-- FIELD_OPTIONS

structure FieldCfg where
  options : Option (List String) := none
  ui : Option String := none
  multiSelect : Bool := false
deriving DecidableEq, Repr

def yesNoCfg : FieldCfg := { options := some ["Yes", "No"], ui := some "buttons" }

/-- `FIELD_OPTIONS.get(field_key, {})`. -/
def field_options (k : String) : FieldCfg :=
  if k = "event_type" then
    { options := some ["Injury/Illness", "Vehicle", "Environmental", "Depot Event",
        "Property Damage", "Security Concern", "Other"], ui := some "buttons" }
  else if k = "inj_status" then
    { options := some ["Full time", "Part time", "Temporary", "Contractor", "Visitor", "Other"],
      ui := some "buttons" }
  else if k = "inj_injury_type" then
    { options := some ["Cut, Laceration, or Puncture", "Burn", "Fracture", "Bruise/Contusion",
        "Sprain or Strain", "Dislocation", "Crush Injury", "Other"], ui := some "dropdown" }
  else if k = "inj_body_part" then
    { options := some ["Head/Scalp", "Eyes", "Neck", "Shoulders", "Back", "Arms",
        "Hands/Fingers", "Torso/Chest", "Legs", "Feet/Toes", "Other"], ui := some "dropdown" }
  else if k = "inj_severity" then
    { options := some ["First Aid", "Medical Treatment", "Restricted Duty", "Lost Time", "Fatality"],
      ui := some "buttons" }
  else if k = "spill_volume" then
    { options := some ["<1 gallon", ">1 gallon", "Unknown"], ui := some "buttons" }
  else if k = "env_roles" then
    { options := some ["Full time", "Part Time", "Temporary", "Contractor", "Visitor", "Other"],
      ui := some "buttons", multiSelect := true }
  else if k = "security_event_types" then
    { options := some ["Theft", "Trespassing", "Vandalism", "Workplace Violence/Threat", "Other"],
      ui := some "buttons", multiSelect := true }
  else if k = "security_party_type" then
    { options := some ["Employee(s)", "Visitor(s)", "Security Staff", "Unknown Individual", "Other"],
      ui := some "buttons" }
  else if k = "security_footage" then
    { options := some ["Yes", "No", "N/A"], ui := some "buttons" }
  else if k = "enablon_confirm" then yesNoCfg
  else if k = "env_enablon_confirm" then yesNoCfg
  else if k = "property_enablon_confirm" then yesNoCfg
  else if k = "security_enablon_confirm" then yesNoCfg
  else if k = "inj_ppe" then yesNoCfg
  else if k = "inj_law" then yesNoCfg
  else if k = "veh_third_party" then yesNoCfg
  else if k = "veh_photos" then yesNoCfg
  else if k = "security_law" then yesNoCfg
  else if k = "when" then { ui := some "datetime" }
  else if k = "capa_due" then { ui := some "date" }
  else {}

-- ---------------------------------------------------------------------------
-- IncidentExtractor

structure ExtractedIncident where
  type : String
  people : List String := []
  injuries : List String := []
  body_parts : List String := []
  locations : List String := []
  chemicals : List String := []
  costs : List String := []
  /-- confidence in tenths (see the header comment on the float model) -/
  confidence : Nat := 0
deriving DecidableEq, Repr

/-- `list(set(xs))`: CPython iterates a set in an implementation-defined
order; this model keeps the first occurrence of each element, which agrees
with CPython on every deduplication evaluated in this file (the lists there
have at most one element). -/
def pySetList (xs : List String) : List String :=
  xs.foldl (fun acc x => if x ∈ acc then acc else acc ++ [x]) []

/-- Maximal same-class character runs, the `\b`-relevant segmentation of the
input: runs of `\w` characters, runs of whitespace, runs of anything else. -/
inductive Seg where
  | word (s : List Char)
  | ws (s : List Char)
  | other (s : List Char)
deriving DecidableEq, Repr

def pushChar (c : Char) (segs : List Seg) : List Seg :=
  if isWordChar c then
    match segs with
    | Seg.word s :: rest => Seg.word (c :: s) :: rest
    | _ => Seg.word [c] :: segs
  else if isPySpace c then
    match segs with
    | Seg.ws s :: rest => Seg.ws (c :: s) :: rest
    | _ => Seg.ws [c] :: segs
  else
    match segs with
    | Seg.other s :: rest => Seg.other (c :: s) :: rest
    | _ => Seg.other [c] :: segs

def segsOf (l : List Char) : List Seg :=
  l.foldr pushChar []

/-- A `\w`-run that `[A-Z][a-z]+` (with `re.IGNORECASE`) can match whole:
at least two characters, all alphabetic.  Runs containing a digit or an
underscore can never take part in a match because the trailing `\b` would
fall inside the run. -/
def nameWord (s : List Char) : Bool :=
  s.length ≥ 2 && s.all isAsciiAlpha

/-- Greedy continuation of `(?:\s+[A-Z][a-z]+)*`. -/
def grab1 (acc : List Char) : List Seg → (List Char × List Seg)
  | Seg.ws w :: Seg.word s :: rest =>
    if nameWord s then grab1 (acc ++ w ++ s) rest
    else (acc, Seg.ws w :: Seg.word s :: rest)
  | rest => (acc, rest)

/-- `re.finditer` of name pattern 1, `\b([A-Z][a-z]+(?:\s+[A-Z][a-z]+)*)\b`
with `re.IGNORECASE`: leftmost non-overlapping greedy matches.  The fuel is
an upper bound on the number of scanning steps (structural recursion so that
concrete inputs evaluate by `decide`). -/
def p1Go (fuel : Nat) (segs : List Seg) : List String :=
  match fuel, segs with
  | 0, _ => []
  | _, [] => []
  | fuel + 1, Seg.word s :: rest =>
    if nameWord s then
      let (m, rest1) := grab1 s rest
      String.mk m :: p1Go fuel rest1
    else p1Go fuel rest
  | fuel + 1, _ :: rest => p1Go fuel rest

def p1Matches (segs : List Seg) : List String :=
  p1Go segs.length segs

def jobWords : List String := ["worker", "employee", "engineer", "technician", "operator"]

/-- `re.finditer` of name pattern 2,
`\b(?:worker|employee|engineer|technician|operator)\s+([A-Z][a-z]+)\b`
with `re.IGNORECASE`; the job word and the captured name must each be a
whole `\w`-run for the boundaries and the following `\s+` to hold. -/
def p2Go (fuel : Nat) (segs : List Seg) : List String :=
  match fuel, segs with
  | 0, _ => []
  | _, [] => []
  | fuel + 1, Seg.word s :: rest =>
    match rest with
    | Seg.ws _ :: Seg.word s1 :: rest1 =>
      if String.mk (s.map asciiLower) ∈ jobWords && nameWord s1 then
        String.mk s1 :: p2Go fuel rest1
      else p2Go fuel rest
    | _ => p2Go fuel rest
  | fuel + 1, _ :: rest => p2Go fuel rest

def p2Matches (segs : List Seg) : List String :=
  p2Go segs.length segs

def nameStoplist : List String := ["the", "and", "for", "with"]

/-- `IncidentExtractor._extract_people` (called on the original-case text). -/
def extract_people (text : String) : List String :=
  let segs := segsOf text.data
  let raw := p1Matches segs ++ p2Matches segs
  let people := (raw.filter
      (fun name => name.length > 2 && pyLower name ∉ nameStoplist)).map pyTitle
  pySetList people

def location_keywords : List String :=
  ["garage", "warehouse", "workshop", "depot", "bay", "dock", "yard", "line",
   "assembly", "plant", "shop", "lab", "laboratory", "office", "parking",
   "atlanta", "austin", "plymouth", "manheim", "stassney"]

/-- `IncidentExtractor._extract_locations` (substring keyword scan on the
lower-cased text). -/
def extract_locations (text : String) : List String :=
  (location_keywords.filter (fun kw => pyContains text kw)).map pyTitle

/-- The chemical alternatives of the two `chemical_patterns`, in pattern and
alternation order; each alternative is a sequence of whole words separated by
whitespace (`hydraulic\s+fluid` etc.), and `chemicals?`/`lubricants?` match
greedily with the plural `s`. -/
def chemAltsOf (low : String) : List (List String) :=
  if low = "chemical" || low = "chemicals" then [["chemicals"], ["chemical"]]
  else if low = "lubricant" || low = "lubricants" then [["lubricants"], ["lubricant"]]
  else []

def chemAlts1 : List (List String) :=
  [["oil"], ["gasoline"], ["diesel"], ["hydraulic", "fluid"], ["coolant"], ["brake", "fluid"]]

def chemAlts2 : List (List String) :=
  [["battery", "acid"], ["chemicals"], ["chemical"], ["lubricants"], ["lubricant"]]

def segWordIs (w : String) : Seg → Bool
  | Seg.word s => String.mk (s.map asciiLower) = w
  | _ => false

/-- Does the alternative `alt` (a whole-word sequence) match at the head of
`segs`, and if so what is the matched text and the remainder? -/
def altMatch : List String → List Seg → Option (List Char × List Seg)
  | [], segs => some ([], segs)
  | [w], Seg.word s :: rest =>
    if segWordIs w (Seg.word s) then some (s, rest) else none
  | w :: w1 :: ws', Seg.word s :: Seg.ws sp :: rest =>
    if segWordIs w (Seg.word s) then
      (altMatch (w1 :: ws') rest).map (fun (m, r) => (s ++ sp ++ m, r))
    else none
  | _, _ => none

def altsGo (fuel : Nat) (alts : List (List String)) (segs : List Seg) : List String :=
  match fuel, segs with
  | 0, _ => []
  | _, [] => []
  | fuel + 1, Seg.word s :: rest =>
    match alts.firstM (fun alt => altMatch alt (Seg.word s :: rest)) with
    | some (m, rest1) => String.mk m :: altsGo fuel alts rest1
    | none => altsGo fuel alts rest
  | fuel + 1, _ :: rest => altsGo fuel alts rest

def wordSeqMatches (alts : List (List String)) (text : String) : List String :=
  let segs := segsOf text.data
  altsGo segs.length alts segs

/-- `IncidentExtractor._extract_chemicals` (the two patterns run separately,
results concatenated and deduplicated). -/
def extract_chemicals (text : String) : List String :=
  pySetList (wordSeqMatches chemAlts1 text ++ wordSeqMatches chemAlts2 text)

/-- Digit run of length one to three with optional `,ddd` groups and an
optional `.dd` fraction, as in the first of the `cost_patterns`. -/
def costNumber (fuel : Nat) : List Char → Option (List Char × List Char)
  | c :: rest =>
    if c.isDigit then
      let lead := (c :: rest).takeWhile Char.isDigit
      if lead.length ≤ 3 then
        let rest1 := (c :: rest).dropWhile Char.isDigit
        let (groups, rest2) := costGroups fuel rest1
        match rest2 with
        | '.' :: d1 :: d2 :: rest3 =>
          if d1.isDigit && d2.isDigit then some (lead ++ groups ++ ['.', d1, d2], rest3)
          else some (lead ++ groups, rest2)
        | _ => some (lead ++ groups, rest2)
      else none
    else none
  | [] => none
where
  costGroups : Nat → List Char → (List Char × List Char)
    | 0, l => ([], l)
    | fuel + 1, ',' :: d1 :: d2 :: d3 :: rest =>
      if d1.isDigit && d2.isDigit && d3.isDigit && !(rest.headD ' ').isDigit then
        let (g, r) := costGroups fuel rest
        ([',', d1, d2, d3] ++ g, r)
      else ([], ',' :: d1 :: d2 :: d3 :: rest)
    | _, l => ([], l)

/-- The optional currency suffix `\s*(?:dollars?|usd|\$)?\b` of cost
pattern 1; returns the consumed characters.  When only whitespace would be
consumed the trailing `\b` fails and the regex backtracks to consume
nothing. -/
def costSuffix (l : List Char) : List Char :=
  let sp := l.takeWhile isPySpace
  let rest := l.dropWhile isPySpace
  let word := rest.takeWhile isWordChar
  let wl := String.mk (word.map asciiLower)
  if wl = "dollars" || wl = "dollar" || wl = "usd" then sp ++ word
  else match rest with
    | '$' :: _ => sp ++ ['$']
    | _ => []

/-- `re.finditer` of cost pattern 1
`\$?\b(\d{1,3}(?:,\d{3})*(?:\.\d{2})?)\s*(?:dollars?|usd|\$)?\b`: a match can
start at a `$` or at a digit preceded by a non-`\w` character; `group(0)`
includes the leading `$` and the consumed suffix.  (Never exercised on the
concrete inputs of this file: no evaluated description contains a digit.) -/
def costP1Go (fuel : Nat) (prevWord : Bool) (l : List Char) : List String :=
  match fuel, l with
  | 0, _ => []
  | _, [] => []
  | fuel + 1, c :: rest =>
    let try1 : Option (List Char × List Char) :=
      if c = '$' then
        (costNumber rest.length rest).map (fun (num, r) =>
          let suf := costSuffix r
          ('$' :: num ++ suf, r.drop suf.length))
      else if c.isDigit && !prevWord then
        (costNumber (c :: rest).length (c :: rest)).map (fun (num, r) =>
          let suf := costSuffix r
          (num ++ suf, r.drop suf.length))
      else none
    match try1 with
    | some (m, rest1) => String.mk m :: costP1Go fuel true rest1
    | none => costP1Go fuel (isWordChar c) rest

/-- `re.finditer` of cost pattern 2 `\bcost(?:ing)?\s+\$?(\d+(?:,\d+)*)\b`;
`group(0)` spans from `cost` to the digits.  (Also never exercised on the
concrete inputs of this file.) -/
def costP2Go (fuel : Nat) (segs : List Seg) : List String :=
  match fuel, segs with
  | 0, _ => []
  | _, [] => []
  | fuel + 1, Seg.word s :: rest =>
    let low := String.mk (s.map asciiLower)
    if low = "cost" || low = "costing" then
      match rest with
      | Seg.ws sp :: rest1 =>
        let (dollar, rest2) : List Char × List Seg :=
          match rest1 with
          | Seg.other ['$'] :: r => (['$'], r)
          | r => ([], r)
        match rest2 with
        | Seg.word d :: rest3 =>
          if d.all Char.isDigit && d ≠ [] then
            String.mk (s ++ sp ++ dollar ++ d) :: costP2Go fuel rest3
          else costP2Go fuel rest
        | _ => costP2Go fuel rest
      | _ => costP2Go fuel rest
    else costP2Go fuel rest
  | fuel + 1, _ :: rest => costP2Go fuel rest

/-- `IncidentExtractor._extract_costs` (no deduplication in the source). -/
def extract_costs (text : String) : List String :=
  costP1Go text.data.length false text.data ++ costP2Go (segsOf text.data).length (segsOf text.data)

def body_part_keywords : List (String × List String) := [
  ("hand", ["hand", "hands", "finger", "fingers", "wrist", "wrists"]),
  ("leg", ["leg", "legs", "knee", "knees", "ankle", "ankles", "foot", "feet"]),
  ("back", ["back", "spine", "lower back", "upper back"]),
  ("head", ["head", "skull", "face", "forehead"]),
  ("arm", ["arm", "arms", "elbow", "elbows", "shoulder", "shoulders"]),
  ("eye", ["eye", "eyes"]),
  ("neck", ["neck"]),
  ("chest", ["chest", "torso", "ribs"])]

/-- `IncidentExtractor._extract_body_parts`. -/
def extract_body_parts (text : String) : List String :=
  (body_part_keywords.filter
    (fun p => p.2.any (fun kw => pyContains text kw))).map Prod.fst

def injury_keywords : List (String × List String) := [
  ("fracture", ["broke", "broken", "fracture", "fractured", "break"]),
  ("cut", ["cut", "laceration", "slice", "sliced"]),
  ("burn", ["burn", "burned", "burnt", "scalded"]),
  ("sprain", ["sprain", "twisted", "strain", "strained"]),
  ("bruise", ["bruise", "bruised", "contusion"])]

/-- `IncidentExtractor._extract_injuries`. -/
def extract_injuries (text : String) : List String :=
  (injury_keywords.filter
    (fun p => p.2.any (fun kw => pyContains text kw))).map Prod.fst

def injury_indicators : List String :=
  ["broke", "broken", "injured", "hurt", "hospital", "fracture",
   "sprain", "cut", "burn", "pain", "bleeding"]

def env_indicators : List String := ["spill", "spilled", "leak", "leaked", "oil", "chemical"]

def vehicle_indicators : List String := ["car", "vehicle", "truck", "collision", "accident", "crash"]

def damage_indicators : List String := ["damage", "cost", "repair", "broken equipment", "property"]

/-- `IncidentExtractor._detect_incident_types` (on the lower-cased text). -/
def detect_incident_types (text : String) : List String :=
  let types :=
    (if injury_indicators.any (fun i => pyContains text i) then ["Injury/Illness"] else []) ++
    (if env_indicators.any (fun i => pyContains text i) then ["Environmental"] else []) ++
    (if vehicle_indicators.any (fun i => pyContains text i) then ["Vehicle"] else []) ++
    (if damage_indicators.any (fun i => pyContains text i) then ["Property Damage"] else [])
  if types = [] then ["Other"] else types

/-- `IncidentExtractor._calculate_confidence`, in tenths, capped at 1.0. -/
def calculate_confidence (inc : ExtractedIncident) : Nat :=
  let score := 3 +
    (if inc.people ≠ [] then 2 else 0) +
    (if inc.locations ≠ [] then 1 else 0) +
    (if inc.injuries ≠ [] || inc.chemicals ≠ [] || inc.costs ≠ [] then 2 else 0) +
    (if inc.people.length > 1 then 1 else 0) +
    (if inc.body_parts.length > 0 then 1 else 0)
  min score 10

/-- `IncidentExtractor.extract_incidents`. -/
def extract_incidents (description : String) : List ExtractedIncident :=
  let text := pyLower description
  (detect_incident_types text).map (fun ty =>
    let base : ExtractedIncident :=
      { type := ty
        people := extract_people description
        locations := extract_locations text }
    let inc :=
      if ty = "Injury/Illness" then
        { base with injuries := extract_injuries text, body_parts := extract_body_parts text }
      else if ty = "Environmental" then
        { base with chemicals := extract_chemicals text }
      else if ty = "Property Damage" || ty = "Vehicle" then
        { base with costs := extract_costs text }
      else base
    { inc with confidence := calculate_confidence inc })

-- ---------------------------------------------------------------------------
-- Conversation state

/-- One entry of `convo.queue`: the tuple
`(field_key, prompt_text, validator_name, options)`. -/
structure FieldReq where
  key : String
  prompt : String
  validator : Option String
  opts : Option (List String)
deriving DecidableEq, Repr

/-- A value of `pending_confirmations`: the builder stores strings for
`event_type`/`where`/`chemicals`/`costs` and lists for
`people`/`body_parts`/`injuries`. -/
inductive CVal where
  | s (v : String)
  | l (v : List String)
deriving DecidableEq, Repr

/-- `dict[k] = v` on an association list: replace the value of an existing
key in place, else append (Python dict insertion order). -/
def dictSet (d : List (String × String)) (k v : String) : List (String × String) :=
  if d.any (fun p => p.1 = k) then d.map (fun p => if p.1 = k then (k, v) else p)
  else d ++ [(k, v)]

def hasKey (d : List (String × String)) (k : String) : Bool :=
  d.any (fun p => p.1 = k)

def dictGet (d : List (String × String)) (k : String) : Option String :=
  d.lookup k

/-- Python truthiness of an optional string (`None` and `""` are falsy). -/
def optTruthy : Option String → Bool
  | none => false
  | some s => s ≠ ""

structure Conversation where
  user_id : String
  queue : List FieldReq := []
  data : List (String × String) := []
  event_type : Option String := none
  extracted_incidents : List ExtractedIncident := []
  pending_confirmations : List (String × CVal) := []
  finished : Bool := false
deriving DecidableEq, Repr

def freshConv (u : String) : Conversation := { user_id := u }

structure Payload where
  ok : Bool
  message : String
  data : List (String × String)
  event_type : Option String
  completed : Bool
  summary : String
deriving DecidableEq, Repr

/-- The reply dictionary of `process_message`; absent dict keys are `none`
(or `false` for the boolean flags). -/
structure Reply where
  reply : String
  next_expected : Option String := none
  done : Bool := false
  ui : Option String := none
  options : Option (List String) := none
  multi_select : Bool := false
  helper_text : Option String := none
  placeholder : Option String := none
  extracted_data : Option (List (String × CVal)) := none
  result : Option Payload := none
deriving DecidableEq, Repr

/-- A step result: the conversation state after the call (Python mutates the
object in place, so state changes survive an exception) and the returned
reply; `none` models the `KeyError` that escapes on the missing depot
prompt keys. -/
abbrev StepResult := Conversation × Option Reply

-- ---------------------------------------------------------------------------
-- EnhancedSmartEHSChatbot

/-- `_make_prompt`. -/
def make_prompt (field_key : String) (prompt : String) : Reply :=
  let cfg := field_options field_key
  let payload : Reply := { reply := prompt, next_expected := some field_key, done := false }
  let payload := { payload with ui := some (cfg.ui.getD "text") }
  let payload := { payload with options := cfg.options }
  let payload :=
    if cfg.multiSelect then
      { payload with
        multi_select := true
        helper_text := some "You can select multiple options (comma-separated)" }
    else payload
  if field_key = "when" then
    { payload with
      placeholder := some "YYYY-MM-DD or YYYY-MM-DD HH:MM"
      helper_text := some "Use date picker or type manually. You can also type \x27unknown\x27" }
  else if field_key = "capa_due" then
    { payload with
      placeholder := some "YYYY-MM-DD"
      helper_text := some "Select due date for corrective action" }
  else if field_key = "inj_phone" || field_key = "phone" then
    { payload with placeholder := some "555-123-4567" }
  else if field_key = "inj_zip" || field_key = "zip" then
    { payload with placeholder := some "12345" }
  else payload

/-- `_make_error_prompt`. -/
def make_error_prompt (field_key : String) (prompt : String) (validator : Option String) : Reply :=
  let cfg := field_options field_key
  let error_msg :=
    if optTruthy validator then
      "⚠️ " ++ validator_msg (validator.getD "") ++ "\n\n" ++ prompt
    else match cfg.options with
      | some opts =>
        if opts ≠ [] then "⚠️ Please choose from: " ++ String.intercalate ", " opts ++ "\n\n" ++ prompt
        else "⚠️ Invalid input.\n\n" ++ prompt
      | none => "⚠️ Invalid input.\n\n" ++ prompt
  make_prompt field_key error_msg

/-- `_validate_field`. -/
def validate_field (field_key : String) (text : String) (validator : Option String) : Bool :=
  if !len_ok text then false
  else if optTruthy validator &&
      (match validator_fn (validator.getD "") with
       | some fn => !fn text
       | none => false) then false
  else
    let cfg := field_options field_key
    match cfg.options with
    | some opts =>
      if opts ≠ [] && !cfg.multiSelect then
        opts.any (fun opt => pyStrip (pyLower text) = pyLower opt)
      else true
    | none => true

/-- `_process_field_value`. -/
def process_field_value (field_key : String) (text : String) : String :=
  let cfg := field_options field_key
  if cfg.multiSelect then
    let values := (text.splitOn ",").map pyStrip
    let opts := cfg.options.getD []
    let matched := values.filterMap (fun v => opts.find? (fun opt => pyLower v = pyLower opt))
    if matched ≠ [] then String.intercalate ", " matched else text
  else pyStrip text

/-- The branch field lists of `_enqueue_branch`, as `(key, validator)`
pairs; the prompt text comes from a `PROMPTS[key]` lookup that raises on a
missing key. -/
def branchSpec (et : String) : List (String × Option String) :=
  if et = "Injury/Illness" then
    [("inj_name", some "nonempty"), ("inj_job_title", some "nonempty"),
     ("inj_phone", some "nonempty"), ("inj_address", some "nonempty"),
     ("inj_city", some "nonempty"), ("inj_state", some "nonempty"),
     ("inj_zip", some "nonempty"), ("inj_status", some "nonempty"),
     ("inj_dept", some "nonempty"), ("inj_supervisor", some "nonempty"),
     ("inj_body_part", some "nonempty"), ("inj_injury_type", some "nonempty"),
     ("inj_severity", some "nonempty"), ("inj_ppe", some "yesno"),
     ("inj_treatment", some "nonempty"), ("inj_law", some "yesno"),
     ("inj_law_details", some "nonempty"), ("immediate_actions", some "nonempty"),
     ("witnesses", some "nonempty"), ("enablon_confirm", some "yesno")]
  else if et = "Vehicle" then
    [("veh_driver", some "nonempty"), ("veh_unit", some "nonempty"),
     ("veh_damage", some "nonempty"), ("veh_third_party", some "yesno"),
     ("veh_third_party_details", some "nonempty"), ("veh_photos", some "yesno"),
     ("immediate_actions", some "nonempty"), ("witnesses", some "nonempty"),
     ("enablon_confirm", some "yesno")]
  else if et = "Environmental" then
    [("env_involved_parties", some "nonempty"), ("env_roles", some "nonempty"),
     ("spill_volume", some "nonempty"), ("chemicals", some "nonempty"),
     ("env_description", some "nonempty"), ("env_corrective_action", some "nonempty"),
     ("env_enablon_confirm", some "yesno"), ("immediate_actions", some "nonempty"),
     ("witnesses", some "nonempty")]
  else if et = "Depot Event" then
    [("depot_description", some "nonempty"), ("depot_immediate_actions", some "nonempty"),
     ("depot_outcome_lessons", some "nonempty"), ("immediate_actions", some "nonempty"),
     ("witnesses", some "nonempty"), ("enablon_confirm", some "yesno")]
  else if et = "Property Damage" then
    [("property_description", some "nonempty"), ("property_cost", some "nonempty"),
     ("property_corrective_action", some "nonempty"), ("property_enablon_confirm", some "yesno"),
     ("immediate_actions", some "nonempty"), ("witnesses", some "nonempty")]
  else if et = "Security Concern" then
    [("security_event_types", some "nonempty"), ("security_description", some "nonempty"),
     ("security_names_roles", some "nonempty"), ("security_party_type", some "nonempty"),
     ("security_law", some "yesno"), ("security_law_details", some "nonempty"),
     ("security_footage", some "nonempty"), ("security_corrective_actions", some "nonempty"),
     ("security_enablon_confirm", some "yesno"), ("immediate_actions", some "nonempty"),
     ("witnesses", some "nonempty")]
  else
    [("other_description", some "nonempty"), ("other_actions", some "nonempty"),
     ("immediate_actions", some "nonempty"), ("witnesses", some "nonempty"),
     ("enablon_confirm", some "yesno")]

/-- Building the prompt tuples of a branch list: each `PROMPTS[key]` lookup
can raise `KeyError` (modelled by `none`), which happens exactly for the
three `depot_*` keys absent from `PROMPTS`. -/
def buildPrompts : List (String × Option String) → Option (List FieldReq)
  | [] => some []
  | kv :: rest =>
    match PROMPTS.lookup kv.1, buildPrompts rest with
    | some p, some fs => some (FieldReq.mk kv.1 p kv.2 none :: fs)
    | _, _ => none

def branchPrompts (et : String) : Option (List FieldReq) :=
  buildPrompts (branchSpec et)

/-- `_enqueue_branch`: `none` when a prompt lookup raises; the filter drops
the keys already present in `data`. -/
def enqueue_branch (c : Conversation) (event_type : String) : Option Conversation :=
  (branchPrompts (pyStrip event_type)).map (fun prompts =>
    { c with queue := c.queue ++ prompts.filter (fun f => !hasKey c.data f.key) })

def rcPrompts : List FieldReq :=
  [FieldReq.mk "why1" ("🔍 **Root Cause Analysis (5 Whys)**\n\n" ++ promptOf "why1") (some "nonempty") none,
   FieldReq.mk "why2" (promptOf "why2") (some "nonempty") none,
   FieldReq.mk "why3" (promptOf "why3") (some "nonempty") none,
   FieldReq.mk "why4" (promptOf "why4") (some "nonempty") none,
   FieldReq.mk "why5" (promptOf "why5") (some "nonempty") none,
   FieldReq.mk "capa_action" ("📋 **Corrective & Preventive Actions**\n\n" ++ promptOf "capa_action") (some "nonempty") none,
   FieldReq.mk "capa_owner" (promptOf "capa_owner") (some "nonempty") none,
   FieldReq.mk "capa_due" (promptOf "capa_due") (some "nonempty") none]

/-- `_enqueue_root_cause_and_action`. -/
def enqueue_root_cause_and_action (c : Conversation) : Conversation :=
  { c with queue := c.queue ++ rcPrompts }

/-- `_finalize`. -/
def finalize (c : Conversation) : StepResult :=
  let c := { c with finished := true }
  let lines : List String :=
    (match c.event_type with
     | some et => if et ≠ "" then ["**Event Type**: " ++ et] else []
     | none => []) ++
    (match dictGet c.data "when" with
     | some v => if hasKey c.data "when" then ["**Date/Time**: " ++ v] else []
     | none => []) ++
    (match dictGet c.data "where" with
     | some v => if hasKey c.data "where" then ["**Location**: " ++ v] else []
     | none => []) ++
    (if c.event_type = some "Injury/Illness" && hasKey c.data "inj_name" then
       ["**Injured Person**: " ++ (dictGet c.data "inj_name").getD ""]
     else if hasKey c.data "veh_driver" then
       ["**Driver**: " ++ (dictGet c.data "veh_driver").getD ""]
     else [])
  let summary := String.intercalate "\n" lines
  let payload : Payload :=
    { ok := true, message := "✅ Incident report completed successfully!",
      data := c.data, event_type := c.event_type, completed := true, summary := summary }
  (c, some
    { reply := "✅ **Incident Report Complete!**\n\n" ++ summary ++
        "\n\n📄 Your report has been captured and is ready for review. Do you want to submit it now or create another report?",
      done := true, result := some payload, ui := some "buttons",
      options := some ["Submit Report", "Create Another Report", "Review & Edit"] })

/-- `any(key.startswith("why") for key in convo.data.keys())`. -/
def has_root_cause_b (d : List (String × String)) : Bool :=
  d.any (fun kv => pyStartsWith kv.1 "why")

/-- `_finalize_or_continue`; the trailing `_next_prompt` call is inlined
here (the two are mutually recursive in the source): after the extend by the
non-empty root-cause block the queue is never empty, so that `_next_prompt`
call always emits the head prompt (the `[]` arm is dead code). -/
def finalize_or_continue (c : Conversation) : StepResult :=
  let has_root_cause := has_root_cause_b c.data
  if !has_root_cause && !c.finished then
    let c := enqueue_root_cause_and_action c
    match c.queue with
    | [] => finalize c
    | f :: _ => (c, some (make_prompt f.key f.prompt))
  else finalize c

/-- `_next_prompt`. -/
def next_prompt (c : Conversation) : StepResult :=
  match c.queue with
  | [] => finalize_or_continue c
  | f :: _ => (c, some (make_prompt f.key f.prompt))

def basicFields : List FieldReq :=
  [FieldReq.mk "when" (promptOf "when") (some "datetime") none,
   FieldReq.mk "where" (promptOf "where") (some "nonempty") none,
   FieldReq.mk "event_type" (promptOf "event_type") (some "nonempty") none]

/-- `_setup_basic_flow`. -/
def setup_basic_flow (c : Conversation) : StepResult :=
  next_prompt { c with queue := c.queue ++ basicFields }

/-- `_setup_targeted_flow`; the `_enqueue_branch` call can raise (depot
keys), in which case the earlier queue/data mutations are kept. -/
def setup_targeted_flow (c : Conversation) : StepResult :=
  let c :=
    if hasKey c.data "when" then c
    else { c with queue := c.queue ++ [FieldReq.mk "when" (promptOf "when") (some "datetime") none] }
  let c :=
    if hasKey c.data "where" then c
    else { c with queue := c.queue ++ [FieldReq.mk "where" (promptOf "where") (some "nonempty") none] }
  if optTruthy c.event_type then
    match enqueue_branch c (c.event_type.getD "") with
    | some c1 => next_prompt c1
    | none => (c, none)
  else next_prompt c

/-- One step of the `for key, value in convo.pending_confirmations.items()`
commit loop of `_process_confirmations`, accumulating `(data, event_type)`.
The off-type cases (a list under a string key and vice versa) are never
produced by `_build_confirmation_message` and are ignored here. -/
def applyConfirm (acc : List (String × String) × Option String) (kv : String × CVal) :
    List (String × String) × Option String :=
  let (d, et) := acc
  match kv with
  | ("event_type", CVal.s v) => (dictSet d "event_type" v, some v)
  | ("people", CVal.l v) =>
    if v ≠ [] && et = some "Injury/Illness" then (dictSet d "inj_name" (v.headD ""), et)
    else (d, et)
  | ("where", CVal.s v) => (dictSet d "where" v, et)
  | ("body_parts", CVal.l v) =>
    if v ≠ [] then (dictSet d "inj_body_part" (v.headD ""), et) else (d, et)
  | ("injuries", CVal.l v) =>
    if v ≠ [] then (dictSet d "inj_injury_type" (pyTitle (v.headD "")), et) else (d, et)
  | ("chemicals", CVal.s v) => (dictSet d "chemicals" v, et)
  | ("costs", CVal.s v) =>
    -- `value[0] if value else ""` on a string: its first character
    (dictSet d "property_cost" (match v.data with
      | [] => ""
      | ch :: _ => String.mk [ch]), et)
  | _ => (d, et)

def confirmOptions : List String := ["Yes, correct", "Some corrections needed", "Start over"]

/-- `_process_confirmations`. -/
def process_confirmations (c : Conversation) (text : String) : StepResult :=
  let response := pyStrip (pyLower text)
  if response = "yes" || response = "yes, correct" || response = "correct" || response = "y" then
    let (d, et) := c.pending_confirmations.foldl applyConfirm (c.data, c.event_type)
    setup_targeted_flow { c with data := d, event_type := et, pending_confirmations := [] }
  else if response = "some corrections needed" || response = "corrections" ||
      response = "no" || response = "n" then
    setup_basic_flow { c with pending_confirmations := [] }
  else if response = "start over" || response = "restart" then
    setup_basic_flow { c with
      data := [("description", (dictGet c.data "description").getD "")],
      pending_confirmations := [], extracted_incidents := [] }
  else
    (c, some { reply := "Please choose one of the options:"
               next_expected := some "confirmation"
               done := false
               ui := some "buttons"
               options := some confirmOptions })

/-- Stable insertion into a confidence-descending list (ties keep the
earlier element first, as Python&#39;s stable `list.sort` does). -/
def insertByConf (x : ExtractedIncident) : List ExtractedIncident → List ExtractedIncident
  | [] => [x]
  | y :: ys => if y.confidence > x.confidence then y :: insertByConf x ys else x :: y :: ys

/-- `incidents.sort(key=lambda x: x.confidence, reverse=True)`. -/
def sortByConfDesc (l : List ExtractedIncident) : List ExtractedIncident :=
  l.foldr insertByConf []

/-- The confirmation lines and confirmation data collected from the primary
incident by `_build_confirmation_message` (in source order: event type with
the `> 0.5` confidence gate, people, location, injury- or
environment-specific details, costs). -/
def confirmationParts (primary : ExtractedIncident) : List String × List (String × CVal) :=
  let etPart : List String × List (String × CVal) :=
    if primary.confidence > 5 then
      (["📋 **Event Type**: " ++ primary.type], [("event_type", CVal.s primary.type)])
    else ([], [])
  let peoplePart : List String × List (String × CVal) :=
    if primary.people ≠ [] then
      (["👥 **People Involved**: " ++ String.intercalate ", " primary.people],
       [("people", CVal.l primary.people)])
    else ([], [])
  let wherePart : List String × List (String × CVal) :=
    if primary.locations ≠ [] then
      (["📍 **Location**: " ++ String.intercalate ", " primary.locations],
       [("where", CVal.s (String.intercalate ", " primary.locations))])
    else ([], [])
  let typePart : List String × List (String × CVal) :=
    if primary.type = "Injury/Illness" then
      let bp : List String × List (String × CVal) :=
        if primary.body_parts ≠ [] then
          (["🦴 **Body Parts**: " ++ String.intercalate ", " primary.body_parts],
           [("body_parts", CVal.l primary.body_parts)])
        else ([], [])
      let ij : List String × List (String × CVal) :=
        if primary.injuries ≠ [] then
          (["🏥 **Injury Type**: " ++ String.intercalate ", " primary.injuries],
           [("injuries", CVal.l primary.injuries)])
        else ([], [])
      (bp.1 ++ ij.1, bp.2 ++ ij.2)
    else if primary.type = "Environmental" then
      if primary.chemicals ≠ [] then
        (["⚗️ **Chemicals**: " ++ String.intercalate ", " primary.chemicals],
         [("chemicals", CVal.s (String.intercalate ", " primary.chemicals))])
      else ([], [])
    else ([], [])
  let costPart : List String × List (String × CVal) :=
    if primary.costs ≠ [] then
      (["💰 **Estimated Cost**: " ++ String.intercalate ", " primary.costs],
       [("costs", CVal.s (String.intercalate ", " primary.costs))])
    else ([], [])
  (etPart.1 ++ peoplePart.1 ++ wherePart.1 ++ typePart.1 ++ costPart.1,
   etPart.2 ++ peoplePart.2 ++ wherePart.2 ++ typePart.2 ++ costPart.2)

/-- `_build_confirmation_message`.  `incidents.sort` mutates the same list
object held in `extracted_incidents`, so the sorted list is written back. -/
def build_confirmation_message (c : Conversation) (incidents : List ExtractedIncident) : StepResult :=
  if incidents = [] then setup_basic_flow c
  else
    let sorted := sortByConfDesc incidents
    let c := { c with extracted_incidents := sorted }
    let primary := sorted.headD { type := "" }
    let parts := confirmationParts primary
    let confirmations := parts.1
    let confirmation_data := parts.2
    let multiple := sorted.length > 1 || primary.people.length > 1
    if confirmations ≠ [] then
      let c := { c with pending_confirmations := confirmation_data }
      let conf_text := String.intercalate "\n" confirmations
      let message :=
        if multiple then
          "🤖 **I detected multiple incidents from your description:**\n\n" ++ conf_text ++
            "\n\n⚠️ **Note**: This appears to involve multiple people/events. After confirming these details, I\x27ll help you create separate reports for each incident.\n\n**Are these details correct?**"
        else
          "🤖 **I extracted these details from your description:**\n\n" ++ conf_text ++
            "\n\n**Are these details correct?**"
      (c, some { reply := message
                 next_expected := some "confirmation"
                 done := false
                 ui := some "buttons"
                 options := some confirmOptions
                 extracted_data := some confirmation_data })
    else setup_basic_flow c

/-- `_process_initial_description`. -/
def process_initial_description (c : Conversation) (text : String) : StepResult :=
  if !nonempty text || !len_ok text then
    (c, some { reply := "⚠️ Please provide a description of what happened."
               next_expected := some "description"
               done := false
               ui := some "textarea" })
  else
    let c := { c with data := dictSet c.data "description" text }
    let incidents := extract_incidents text
    let c := { c with extracted_incidents := incidents }
    build_confirmation_message c incidents

/-- `_process_regular_field`. -/
def process_regular_field (c : Conversation) (text : String) : StepResult :=
  match c.queue with
  | [] => finalize_or_continue c
  | f :: rest =>
    if !validate_field f.key text f.validator then
      (c, some (make_error_prompt f.key f.prompt f.validator))
    else
      let c := { c with
                 data := dictSet c.data f.key (process_field_value f.key text)
                 queue := rest }
      if f.key = "event_type" then
        -- `convo.event_type = convo.data[field_key]`: the value just stored
        let et := (dictGet c.data "event_type").getD ""
        let c := { c with event_type := some et }
        match enqueue_branch c et with
        | some c1 => next_prompt c1
        | none => (c, none)
      else next_prompt c

/-- `process_message` for an existing, unfinished conversation (a missing or
finished conversation is replaced by a fresh one in the source; that starts
a new conversation, so the trace of the old one ends there). -/
def process_message (c : Conversation) (text0 : String) : StepResult :=
  let text := pyStrip text0
  if c.data = [] && c.queue = [] then process_initial_description c text
  else if c.pending_confirmations ≠ [] then process_confirmations c text
  else process_regular_field c text

-- ---------------------------------------------------------------------------
-- EnhancedFiveWhysManager

structure FWSession where
  problem : String
  whys : List String
  current_why : Nat
deriving DecidableEq, Repr

/-- The `_sessions` dict, keyed by user id. -/
abbrev FWManager := List (String × FWSession)

def fwSet (m : FWManager) (u : String) (s : FWSession) : FWManager :=
  if m.any (fun p => p.1 = u) then m.map (fun p => if p.1 = u then (u, s) else p)
  else m ++ [(u, s)]

/-- The dictionaries returned by the five-whys methods; absent keys are
`none`/`false`. -/
structure FWReply where
  reply : Option String := none
  ui : Option String := none
  helper_text : Option String := none
  error : Option String := none
  analysis_complete : Bool := false
  root_cause : Option String := none
  all_whys : Option (List String) := none
deriving DecidableEq, Repr

/-- `EnhancedFiveWhysManager.start`. -/
def five_whys_start (m : FWManager) (u problem : String) : FWManager × FWReply :=
  (fwSet m u { problem := problem, whys := [], current_why := 1 },
   { reply := some ("🔍 **Root Cause Analysis - 5 Whys Method**\n\n**Problem**: " ++ problem ++
       "\n\nLet\x27s dig deeper to find the root cause. For each \x27Why\x27 question, think about what directly caused the previous answer.\n\n**Why 1**: Why did this problem occur?")
     ui := some "textarea"
     helper_text := some "Be specific and focus on direct causes, not blame" })

/-- `EnhancedFiveWhysManager._complete_analysis`. -/
def five_whys_complete_analysis (m : FWManager) (u : String) : FWManager × FWReply :=
  match m.lookup u with
  | none => (m, { error := some "Session not found" })
  | some s =>
    let lines := s.whys.enum.map (fun p => "**Why " ++ toString (p.1 + 1) ++ "**: " ++ p.2)
    let root := s.whys.getLastD ""
    (m, { reply := some ("✅ **Root Cause Analysis Complete**\n\n" ++
            String.intercalate "\n" lines ++ "\n\n🎯 **Root Cause**: " ++ root ++
            "\n\nNow let\x27s define corrective actions to prevent this from happening again.")
          analysis_complete := true
          root_cause := some root
          all_whys := some s.whys })

/-- `EnhancedFiveWhysManager.answer`. -/
def five_whys_answer (m : FWManager) (u ans : String) : FWManager × FWReply :=
  match m.lookup u with
  | none => (m, { error := some "No active 5 Whys session" })
  | some s =>
    if pyStrip ans = "" then
      (m, { reply := some ("⚠️ Please provide an answer to Why " ++ toString s.current_why ++ ":")
            ui := some "textarea" })
    else
      let s1 : FWSession :=
        { s with whys := s.whys ++ [pyStrip ans], current_why := s.current_why + 1 }
      let m1 := fwSet m u s1
      if s1.whys.length ≥ 5 then five_whys_complete_analysis m1 u
      else
        (m1, { reply := some ("**Why " ++ toString s1.current_why ++ "**: Why " ++
                 pyLower (s1.whys.getLastD "") ++ "?")
               ui := some "textarea"
               helper_text := some ("Continue digging deeper - " ++
                 toString ((6 : Int) - (s1.current_why : Int)) ++ " more to go") })

/-- `EnhancedFiveWhysManager.is_complete`. -/
def five_whys_is_complete (m : FWManager) (u : String) : Bool :=
  match m.lookup u with
  | some s => s.whys.length ≥ 5
  | none => false

/-- `EnhancedFiveWhysManager.get`. -/
def five_whys_get (m : FWManager) (u : String) : Option FWSession :=
  m.lookup u

/-- A sequence of `answer` calls for one user. -/
def run_answers (m : FWManager) (u : String) (texts : List String) : FWManager :=
  texts.foldl (fun acc t => (five_whys_answer acc u t).1) m

-- ---------------------------------------------------------------------------
-- Conversation traces and reachability

/-- Iterate `process_message`; a finished conversation is replaced by a new
one in the source, which ends the trace of this conversation. -/
def run_messages (c : Conversation) : List String → Conversation
  | [] => c
  | t :: ts => if c.finished then c else run_messages (process_message c t).1 ts

/-- The replies produced along a trace (`none` = escaped exception). -/
def run_replies (c : Conversation) : List String → List (Option Reply)
  | [] => []
  | t :: ts =>
    if c.finished then []
    else (process_message c t).2 :: run_replies (process_message c t).1 ts

/-- Conversation states reachable from a fresh conversation through
`process_message`. -/
inductive Reach : Conversation → Prop where
  | init (u : String) : Reach (freshConv u)
  | step (c : Conversation) (t : String) :
      Reach c → c.finished = false → Reach (process_message c t).1

def dataKeys (c : Conversation) : List String := c.data.map Prod.fst

def queueKeys (c : Conversation) : List String := c.queue.map FieldReq.key

def rcKeys : List String :=
  ["why1", "why2", "why3", "why4", "why5", "capa_action", "capa_owner", "capa_due"]

def capaKeys : List String := ["capa_action", "capa_owner", "capa_due"]

def basicKeys : List String := ["when", "where", "event_type"]

/-- The inductive invariant of reachable conversations:
queue keys are distinct; data and queue keys are disjoint; while a
confirmation is pending only the description has been stored and the queue
is empty; CAPA keys reach `data` only after `why1`; the root-cause block
enters the queue whole and is consumed in order; `event_type` sits in the
queue only as part of (a suffix of) the basic-info block. -/
def ConvInv (c : Conversation) : Prop :=
  (queueKeys c).Nodup ∧
  (∀ k, k ∈ dataKeys c → k ∉ queueKeys c) ∧
  (c.pending_confirmations ≠ [] → dataKeys c = ["description"] ∧ c.queue = []) ∧
  ((∃ k, k ∈ dataKeys c ∧ k ∈ capaKeys) → "why1" ∈ dataKeys c) ∧
  ((∀ k, k ∈ rcKeys → k ∉ queueKeys c) ∨
    ∃ n, n ≤ 8 ∧ queueKeys c = rcKeys.drop n ∧ ∀ k, k ∈ rcKeys.take n → k ∈ dataKeys c) ∧
  ("event_type" ∈ queueKeys c → ∃ m, m ≤ 2 ∧ queueKeys c = basicKeys.drop m)

/-- The data keys the accept-path of `_process_confirmations` can write. -/
def commitKeys : List String :=
  ["event_type", "inj_name", "where", "inj_body_part", "inj_injury_type",
   "chemicals", "property_cost"]

-- ---------------------------------------------------------------------------
-- Association-list lemmas

theorem hasKey_eq_mem (d : List (String × String)) (k : String) :
    hasKey d k = true ↔ k ∈ d.map Prod.fst := by
  induction d with
  | nil => simp [hasKey]
  | cons p rest ih =>
    simp only [hasKey, List.any_cons, List.map_cons, List.mem_cons, Bool.or_eq_true,
      decide_eq_true_eq] at *
    constructor
    · rintro (h | h)
    
      · exact Or.inl h.symm
      · exact Or.inr (ih.mp h)
    · rintro (h | h)
      · exact Or.inl h.symm
      · exact Or.inr (ih.mpr h)

theorem dictSet_map_fst_of_has (d : List (String × String)) (k v : String)
    (h : hasKey d k = true) : (dictSet d k v).map Prod.fst = d.map Prod.fst := by
  unfold dictSet
  rw [show d.any (fun p => p.1 = k) = true from h]
  simp only [if_true, List.map_map]
  apply List.map_congr_left
  intro p _
  by_cases hp : p.1 = k
  · simp [hp]
  · simp [hp]

theorem dictSet_map_fst_of_not (d : List (String × String)) (k v : String)
    (h : hasKey d k = false) : (dictSet d k v).map Prod.fst = d.map Prod.fst ++ [k] := by
  unfold dictSet
  rw [show d.any (fun p => p.1 = k) = false from h]
  simp

theorem mem_dictSet_keys (d : List (String × String)) (k v k' : String) :
    k' ∈ (dictSet d k v).map Prod.fst ↔ k' ∈ d.map Prod.fst ∨ k' = k := by
  by_cases h : hasKey d k = true
  · rw [dictSet_map_fst_of_has d k v h]
    constructor
    · exact Or.inl
    · rintro (hm | rfl)
      · exact hm
      · exact (hasKey_eq_mem d k').mp h
  · rw [dictSet_map_fst_of_not d k v (by simpa using h)]
    simp

theorem mem_keys_dictSet_of_mem (d : List (String × String)) (k v k' : String)
    (h : k' ∈ d.map Prod.fst) : k' ∈ (dictSet d k v).map Prod.fst :=
  (mem_dictSet_keys d k v k').mpr (Or.inl h)

theorem has_root_cause_b_eq_keys (d : List (String × String)) :
    has_root_cause_b d = (d.map Prod.fst).any (fun k => pyStartsWith k "why") := by
  induction d with
  | nil => rfl
  | cons p rest ih => simp [has_root_cause_b, List.any_cons] at *; rw [ih]

-- ---------------------------------------------------------------------------
-- Branch-list lemmas

theorem buildPrompts_keys :
    ∀ (spec : List (String × Option String)) (l : List FieldReq),
      buildPrompts spec = some l → l.map FieldReq.key = spec.map Prod.fst := by
  intro spec
  induction spec with
  | nil =>
    intro l hl
    simp only [buildPrompts] at hl
    cases hl
    rfl
  | cons kv rest ih =>
    intro l hl
    simp only [buildPrompts] at hl
    cases hp : PROMPTS.lookup kv.1 with
    | none => rw [hp] at hl; cases hl
    | some p =>
      rw [hp] at hl
      cases hr : buildPrompts rest with
      | none => rw [hr] at hl; cases hl
      | some fs =>
        rw [hr] at hl
        cases hl
        simp [ih fs hr]

theorem branchSpec_keys_ok (et : String) :
    ((branchSpec et).map Prod.fst).Nodup ∧
    ∀ k, k ∈ (branchSpec et).map Prod.fst →
      k ∉ rcKeys ∧ k ≠ "event_type" ∧ k ≠ "when" ∧ k ≠ "where" ∧
        k ≠ "description" ∧ k ≠ "confirmation" := by
  unfold branchSpec
  split_ifs <;> decide

theorem branchPrompts_keys_ok (et : String) (l : List FieldReq)
    (hl : branchPrompts et = some l) :
    (l.map FieldReq.key).Nodup ∧
    ∀ k, k ∈ l.map FieldReq.key →
      k ∉ rcKeys ∧ k ≠ "event_type" ∧ k ≠ "when" ∧ k ≠ "where" ∧
        k ≠ "description" ∧ k ≠ "confirmation" := by
  rw [buildPrompts_keys (branchSpec et) l hl]
  exact branchSpec_keys_ok et

theorem filter_keys_sublist (l : List FieldReq) (p : FieldReq → Bool) :
    ((l.filter p).map FieldReq.key).Sublist (l.map FieldReq.key) :=
  (List.filter_sublist l).map FieldReq.key

theorem rcPrompts_keys : rcPrompts.map FieldReq.key = rcKeys := by decide


-- ---------------------------------------------------------------------------
-- Step-equation lemmas

theorem finalize_or_continue_finalize (c : Conversation)
    (h : has_root_cause_b c.data = true ∨ c.finished = true) :
    finalize_or_continue c = finalize c := by
  unfold finalize_or_continue
  rcases h with h | h <;> rw [h] <;> simp

theorem finalize_or_continue_rc (c : Conversation) (hq : c.queue = [])
    (hrc : has_root_cause_b c.data = false) (hf : c.finished = false) :
    finalize_or_continue c =
      ({ c with queue := rcPrompts },
       some (make_prompt "why1" ("🔍 **Root Cause Analysis (5 Whys)**\n\n" ++ promptOf "why1"))) := by
  unfold finalize_or_continue enqueue_root_cause_and_action
  rw [hrc, hf, hq]
  rfl

-- ---------------------------------------------------------------------------
-- Invariant preservation

theorem ConvInv_of_eq (c c' : Conversation)
    (hq : c'.queue = c.queue) (hd : c'.data = c.data)
    (hp : c'.pending_confirmations = c.pending_confirmations)
    (h : ConvInv c) : ConvInv c' := by
  unfold ConvInv dataKeys queueKeys at *
  rw [hq, hd, hp]
  exact h

theorem inv_finalize (c : Conversation) (h : ConvInv c) : ConvInv (finalize c).1 :=
  ConvInv_of_eq c _ rfl rfl rfl h

theorem rcKeys_mem_cases (k : String) (hk : k ∈ rcKeys) :
    pyStartsWith k "why" = true ∨ k ∈ capaKeys := by
  fin_cases hk <;> decide

theorem inv_finalize_or_continue (c : Conversation)
    (hq : c.queue = []) (hp : c.pending_confirmations = [])
    (hInv : ConvInv c) : ConvInv (finalize_or_continue c).1 := by
  obtain ⟨h1, h2, h3, h4, h5, h6⟩ := hInv
  cases hrc : has_root_cause_b c.data with
  | true =>
    rw [finalize_or_continue_finalize c (Or.inl hrc)]
    exact inv_finalize c ⟨h1, h2, h3, h4, h5, h6⟩
  | false =>
    cases hf : c.finished with
    | true =>
      rw [finalize_or_continue_finalize c (Or.inr hf)]
      exact inv_finalize c ⟨h1, h2, h3, h4, h5, h6⟩
    | false =>
      rw [finalize_or_continue_rc c hq hrc hf]
      show ConvInv { c with queue := rcPrompts }
      have hdisj : ∀ k, k ∈ dataKeys c → k ∉ rcKeys := by
        intro k hk hkrc
        rcases rcKeys_mem_cases k hkrc with hw | hcapa
        · have : has_root_cause_b c.data = true := by
            rw [has_root_cause_b_eq_keys]
            exact List.any_eq_true.mpr ⟨k, hk, hw⟩
          rw [hrc] at this
          exact absurd this (by decide)
        · have hw1 : "why1" ∈ dataKeys c := h4 ⟨k, hk, hcapa⟩
          have : has_root_cause_b c.data = true := by
            rw [has_root_cause_b_eq_keys]
            exact List.any_eq_true.mpr ⟨"why1", hw1, by decide⟩
          rw [hrc] at this
          exact absurd this (by decide)
      have hqk : queueKeys { c with queue := rcPrompts } = rcKeys := rcPrompts_keys
      unfold ConvInv
      refine ⟨?_, ?_, ?_, ?_, ?_, ?_⟩
      · rw [hqk]; decide
      · intro k hk
        rw [hqk]
        exact hdisj k hk
      · intro hpend
        exact absurd hp hpend
      · exact h4
      · right
        refine ⟨0, by norm_num, by rw [hqk]; rfl, ?_⟩
        intro k hk
        simp at hk
      · intro hmem
        rw [hqk] at hmem
        exact absurd hmem (by decide)

theorem inv_next_prompt (c : Conversation)
    (hp : c.pending_confirmations = [])
    (hInv : ConvInv c) : ConvInv (next_prompt c).1 := by
  unfold next_prompt
  cases hq : c.queue with
  | nil => exact inv_finalize_or_continue c hq hp hInv
  | cons f rest => exact hInv

theorem hasKey_false_not_mem (d : List (String × String)) (k : String)
    (h : hasKey d k = false) : k ∉ d.map Prod.fst := by
  intro hm
  rw [(hasKey_eq_mem d k).mpr hm] at h
  exact absurd h (by decide)

/-- Packaging lemma: a state whose queue holds distinct keys, all absent
from `data`, none of them root-cause keys or `event_type`, with no pending
confirmation, satisfies the invariant provided the data-side CAPA property
holds. -/
theorem inv_queue_fresh (c : Conversation)
    (hp : c.pending_confirmations = [])
    (h4 : (∃ k, k ∈ dataKeys c ∧ k ∈ capaKeys) → "why1" ∈ dataKeys c)
    (hnodup : (queueKeys c).Nodup)
    (hdisj : ∀ k, k ∈ queueKeys c → hasKey c.data k = false)
    (hrcq : ∀ k, k ∈ rcKeys → k ∉ queueKeys c)
    (hetq : "event_type" ∉ queueKeys c) : ConvInv c := by
  refine ⟨hnodup, ?_, ?_, h4, Or.inl hrcq, ?_⟩
  · intro k hk hkq
    exact hasKey_false_not_mem c.data k (hdisj k hkq) hk
  · intro hpend
    exact absurd hp hpend
  · intro hmem
    exact absurd hmem hetq

theorem mem_filter_branch (l : List FieldReq) (d : List (String × String)) (k : String)
    (h : k ∈ (l.filter (fun f => !hasKey d f.key)).map FieldReq.key) :
    k ∈ l.map FieldReq.key ∧ hasKey d k = false := by
  simp only [List.mem_map, List.mem_filter, Bool.not_eq_true'] at h
  obtain ⟨f, ⟨hfl, hfk⟩, rfl⟩ := h
  exact ⟨List.mem_map.mpr ⟨f, hfl, rfl⟩, hfk⟩

theorem basicFields_keys : basicFields.map FieldReq.key = basicKeys := rfl

theorem inv_setup_basic_flow (c : Conversation)
    (hq : c.queue = []) (hp : c.pending_confirmations = [])
    (hd : dataKeys c = ["description"]) : ConvInv (setup_basic_flow c).1 := by
  unfold setup_basic_flow
  have hc1 : ConvInv { c with queue := c.queue ++ basicFields } := by
    rw [hq]
    have hqk : queueKeys { c with queue := ([] : List FieldReq) ++ basicFields } = basicKeys :=
      basicFields_keys
    refine ⟨?_, ?_, ?_, ?_, ?_, ?_⟩
    · rw [hqk]; decide
    · intro k hk
      have : k = "description" := by
        have : k ∈ dataKeys c := hk
        rw [hd] at this
        simpa using this
      rw [hqk, this]
      decide
    · intro hpend
      exact absurd hp hpend
    · intro hcapa
      obtain ⟨k, hk, hkc⟩ := hcapa
      have : k = "description" := by
        have : k ∈ dataKeys c := hk
        rw [hd] at this
        simpa using this
      rw [this] at hkc
      exact absurd hkc (by decide)
    · left
      intro k hkrc
      rw [hqk]
      fin_cases hkrc <;> decide
    · intro _
      exact ⟨0, by norm_num, by rw [hqk]; rfl⟩
  exact inv_next_prompt _ hp hc1


theorem queueKeys_extend (c : Conversation) (x : List FieldReq) :
    queueKeys { c with queue := c.queue ++ x } = queueKeys c ++ x.map FieldReq.key := by
  simp [queueKeys]

theorem inv_targeted_tail (c2 : Conversation)
    (hp : c2.pending_confirmations = [])
    (h4 : (∃ k, k ∈ dataKeys c2 ∧ k ∈ capaKeys) → "why1" ∈ dataKeys c2)
    (hnodup : (queueKeys c2).Nodup)
    (hdisj : ∀ k, k ∈ queueKeys c2 → hasKey c2.data k = false)
    (hsub : ∀ k, k ∈ queueKeys c2 → k = "when" ∨ k = "where") :
    ConvInv (if optTruthy c2.event_type then
        match enqueue_branch c2 (c2.event_type.getD "") with
        | some c1 => next_prompt c1
        | none => (c2, none)
      else next_prompt c2).1 := by
  have hinv2 : ConvInv c2 := by
    refine inv_queue_fresh c2 hp h4 hnodup hdisj ?_ ?_
    · intro k hkrc hkq
      rcases hsub k hkq with rfl | rfl
      · exact absurd hkrc (by decide)
      · exact absurd hkrc (by decide)
    · intro hkq
      rcases hsub _ hkq with h | h <;> exact absurd h (by decide)
  by_cases het : optTruthy c2.event_type
  · rw [if_pos het]
    cases henb : enqueue_branch c2 (c2.event_type.getD "") with
    | none => exact hinv2
    | some c3 =>
      unfold enqueue_branch at henb
      cases hbp : branchPrompts (pyStrip (c2.event_type.getD "")) with
      | none => rw [hbp] at henb; cases henb
      | some l =>
        rw [hbp] at henb
        replace henb := Option.some.inj henb
        obtain ⟨hok1, hok2⟩ := branchPrompts_keys_ok _ l hbp
        have hc3 : ConvInv c3 := by
          rw [← henb]
          refine inv_queue_fresh _ hp h4 ?_ ?_ ?_ ?_
          · rw [queueKeys_extend]
            refine List.Nodup.append hnodup ?_ ?_
            · exact List.Nodup.sublist (filter_keys_sublist l _) hok1
            · intro k hk1 hk2
              have := mem_filter_branch l c2.data k hk2
              rcases hsub k hk1 with rfl | rfl
              · exact absurd this.1 (fun hm => (hok2 _ hm).2.2.1 rfl)
              · exact absurd this.1 (fun hm => (hok2 _ hm).2.2.2.1 rfl)
          · intro k hk
            rw [queueKeys_extend] at hk
            rcases List.mem_append.mp hk with hk | hk
            · exact hdisj k hk
            · exact (mem_filter_branch l c2.data k hk).2
          · intro k hkrc hkq
            rw [queueKeys_extend] at hkq
            rcases List.mem_append.mp hkq with hkq | hkq
            · rcases hsub k hkq with rfl | rfl
              · exact absurd hkrc (by decide)
              · exact absurd hkrc (by decide)
            · exact (hok2 k (mem_filter_branch l c2.data k hkq).1).1 hkrc
          · intro hkq
            rw [queueKeys_extend] at hkq
            rcases List.mem_append.mp hkq with hkq | hkq
            · rcases hsub _ hkq with h | h <;> exact absurd h (by decide)
            · exact (hok2 _ (mem_filter_branch l c2.data _ hkq).1).2.1 rfl
        rw [← henb] at hc3 ⊢
        exact inv_next_prompt _ hp hc3
  · rw [if_neg het]
    exact inv_next_prompt c2 hp hinv2

theorem inv_setup_targeted_flow (c : Conversation)
    (hq : c.queue = []) (hp : c.pending_confirmations = [])
    (h4 : (∃ k, k ∈ dataKeys c ∧ k ∈ capaKeys) → "why1" ∈ dataKeys c) :
    ConvInv (setup_targeted_flow c).1 := by
  unfold setup_targeted_flow
  by_cases h1 : hasKey c.data "when" <;> by_cases h2 : hasKey c.data "where" <;>
    simp only [h1, h2, if_true, if_false, Bool.false_eq_true]
  · exact inv_targeted_tail c hp h4 (by simp [queueKeys, hq]) (by simp [queueKeys, hq])
      (by simp [queueKeys, hq])
  · refine inv_targeted_tail
      { c with queue := c.queue ++ [FieldReq.mk "where" (promptOf "where") (some "nonempty") none] }
      hp h4 ?_ ?_ ?_
    · simp [queueKeys, hq]
    · intro k hk
      have : k = "where" := by simpa [queueKeys, hq] using hk
      rw [this]
      simpa using h2
    · intro k hk
      right
      simpa [queueKeys, hq] using hk
  · refine inv_targeted_tail
      { c with queue := c.queue ++ [FieldReq.mk "when" (promptOf "when") (some "datetime") none] }
      hp h4 ?_ ?_ ?_
    · simp [queueKeys, hq]
    · intro k hk
      have : k = "when" := by simpa [queueKeys, hq] using hk
      rw [this]
      simpa using h1
    · intro k hk
      left
      simpa [queueKeys, hq] using hk
  · refine inv_targeted_tail
      { c with queue :=
          (c.queue ++ [FieldReq.mk "when" (promptOf "when") (some "datetime") none]) ++
            [FieldReq.mk "where" (promptOf "where") (some "nonempty") none] }
      hp h4 ?_ ?_ ?_
    · simp [queueKeys, hq]
    · intro k hk
      have : k = "when" ∨ k = "where" := by
        rcases (by simpa [queueKeys, hq] using hk : k = "when" ∨ k = "where") with h | h
        · exact Or.inl h
        · exact Or.inr h
      rcases this with rfl | rfl
      · simpa using h1
      · simpa using h2
    · intro k hk
      simpa [queueKeys, hq] using hk

theorem applyConfirm_keys (acc : List (String × String) × Option String) (kv : String × CVal) :
    ∀ k, k ∈ (applyConfirm acc kv).1.map Prod.fst →
      k ∈ acc.1.map Prod.fst ∨ k ∈ commitKeys := by
  intro k hk
  obtain ⟨d, et⟩ := acc
  dsimp only
  unfold applyConfirm at hk
  (try dsimp only at hk)
  split at hk <;> (try split at hk) <;> (try dsimp only at hk) <;>
    first
    | (rcases (mem_dictSet_keys _ _ _ _).mp hk with hk | rfl
       · exact Or.inl hk
       · exact Or.inr (by decide))
    | exact Or.inl hk

theorem foldl_applyConfirm_keys (pcs : List (String × CVal)) :
    ∀ (d : List (String × String)) (et : Option String) (k : String),
      k ∈ (pcs.foldl applyConfirm (d, et)).1.map Prod.fst →
      k ∈ d.map Prod.fst ∨ k ∈ commitKeys := by
  induction pcs with
  | nil => intro d et k hk; exact Or.inl hk
  | cons p rest ih =>
    intro d et k hk
    rw [List.foldl_cons] at hk
    have step := applyConfirm_keys (d, et) p
    rcases ih (applyConfirm (d, et) p).1 (applyConfirm (d, et) p).2 k (by simpa using hk) with h | h
    · exact step k h
    · exact Or.inr h

theorem inv_process_confirmations (c : Conversation) (text : String)
    (hInv : ConvInv c) (hpne : c.pending_confirmations ≠ []) :
    ConvInv (process_confirmations c text).1 := by
  obtain ⟨h1, h2, h3, h4, h5, h6⟩ := hInv
  obtain ⟨hd, hq⟩ := h3 hpne
  unfold process_confirmations
  split
  next d et heq =>
  dsimp only
  split
  · refine inv_setup_targeted_flow _ hq rfl ?_
    rintro ⟨k, hk, hkcapa⟩
    have hmem : k ∈ c.data.map Prod.fst ∨ k ∈ commitKeys := by
      refine foldl_applyConfirm_keys c.pending_confirmations c.data c.event_type k ?_
      rw [heq]
      exact hk
    rcases hmem with h | h
    · have hkd : k = "description" := by
        have hx : k ∈ dataKeys c := h
        rw [hd] at hx
        simpa using hx
      rw [hkd] at hkcapa
      exact absurd hkcapa (by decide)
    · fin_cases h <;> exact absurd hkcapa (by decide)
  · split
    · exact inv_setup_basic_flow _ hq rfl hd
    · split
      · exact inv_setup_basic_flow _ hq rfl rfl
      · exact ⟨h1, h2, fun hpend => ⟨hd, hq⟩, h4, h5, h6⟩

theorem capa_sub_rc : ∀ x, x ∈ capaKeys → x ∈ rcKeys := by decide

theorem rc_drop_capa (n : Nat) (hn : n ∈ List.range 9) :
    ∀ k, k ∈ capaKeys → (rcKeys.drop n).head? = some k → "why1" ∈ rcKeys.take n := by
  fin_cases hn <;> decide

theorem inv_enqueue_branch_some (c2 c3 : Conversation) (et : String)
    (henb : enqueue_branch c2 et = some c3)
    (hp : c2.pending_confirmations = [])
    (h4 : (∃ k, k ∈ dataKeys c2 ∧ k ∈ capaKeys) → "why1" ∈ dataKeys c2)
    (hq2 : c2.queue = []) :
    ConvInv (next_prompt c3).1 := by
  unfold enqueue_branch at henb
  cases hbp : branchPrompts (pyStrip et) with
  | none => rw [hbp] at henb; cases henb
  | some l =>
    rw [hbp] at henb
    replace henb := Option.some.inj henb
    obtain ⟨hok1, hok2⟩ := branchPrompts_keys_ok _ l hbp
    have hqk2 : queueKeys c2 = [] := by unfold queueKeys; rw [hq2]; rfl
    have hc3 : ConvInv c3 := by
      rw [← henb]
      refine inv_queue_fresh _ hp h4 ?_ ?_ ?_ ?_
      · rw [queueKeys_extend, hqk2, List.nil_append]
        exact List.Nodup.sublist (filter_keys_sublist l _) hok1
      · intro k hk
        rw [queueKeys_extend, hqk2, List.nil_append] at hk
        exact (mem_filter_branch l c2.data k hk).2
      · intro k hkrc hkq
        rw [queueKeys_extend, hqk2, List.nil_append] at hkq
        exact (hok2 k (mem_filter_branch l c2.data k hkq).1).1 hkrc
      · intro hkq
        rw [queueKeys_extend, hqk2, List.nil_append] at hkq
        exact (hok2 _ (mem_filter_branch l c2.data _ hkq).1).2.1 rfl
    have hpc3 : c3.pending_confirmations = [] := by rw [← henb]; exact hp
    exact inv_next_prompt _ hpc3 hc3

theorem inv_process_regular_field (c : Conversation) (text : String)
    (hp : c.pending_confirmations = []) (hInv : ConvInv c) :
    ConvInv (process_regular_field c text).1 := by
  obtain ⟨h1, h2, h3, h4, h5, h6⟩ := hInv
  unfold process_regular_field
  cases hq : c.queue with
  | nil => exact inv_finalize_or_continue c hq hp ⟨h1, h2, h3, h4, h5, h6⟩
  | cons f rest =>
    dsimp only
    split
    · exact ⟨h1, h2, h3, h4, h5, h6⟩
    · next hcond =>
      have hv : validate_field f.key text f.validator = true := by
        cases hvb : validate_field f.key text f.validator with
        | false => exact absurd (by rw [hvb]; rfl) hcond
        | true => rfl
      have hqk0 : queueKeys c = f.key :: rest.map FieldReq.key := by
        unfold queueKeys; rw [hq]; rfl
      have hfq : f.key ∈ queueKeys c := by rw [hqk0]; exact List.mem_cons_self _ _
      have hnodups := List.nodup_cons.mp (hqk0 ▸ h1)
      have hfd : hasKey c.data f.key = false := by
        cases hkb : hasKey c.data f.key with
        | false => rfl
        | true => exact absurd hfq (h2 f.key ((hasKey_eq_mem c.data f.key).mp hkb))
      have hA : dataKeys { c with
            data := dictSet c.data f.key (process_field_value f.key text), queue := rest } =
          dataKeys c ++ [f.key] :=
        dictSet_map_fst_of_not c.data f.key (process_field_value f.key text) hfd
      have hqk1 : queueKeys { c with
            data := dictSet c.data f.key (process_field_value f.key text), queue := rest } =
          rest.map FieldReq.key := rfl
      have hinv1 : ConvInv { c with
          data := dictSet c.data f.key (process_field_value f.key text), queue := rest } := by
        refine ⟨?_, ?_, ?_, ?_, ?_, ?_⟩
        · rw [hqk1]; exact hnodups.2
        · intro k hk
          rw [hA] at hk
          rw [hqk1]
          rcases List.mem_append.mp hk with hk | hk
          · intro hmem
            exact h2 k hk (by rw [hqk0]; exact List.mem_cons_of_mem _ hmem)
          · have hkf : k = f.key := by simpa using hk
            rw [hkf]
            exact hnodups.1
        · intro hpend
          exact absurd hp hpend
        · rintro ⟨k, hk, hkcapa⟩
          rw [hA] at hk
          rw [hA]
          apply List.mem_append_left
          rcases List.mem_append.mp hk with hk | hk
          · exact h4 ⟨k, hk, hkcapa⟩
          · have hkf : k = f.key := by simpa using hk
            rw [hkf] at hkcapa
            rcases h5 with hno | ⟨n, hn, hdropeq, htake⟩
            · exact absurd hfq (hno f.key (capa_sub_rc f.key hkcapa))
            · rw [hqk0] at hdropeq
              have hn8 : n < 8 := by
                by_contra hge
                have hnil : rcKeys.drop n = [] :=
                  List.drop_eq_nil_of_le (by simp [rcKeys]; omega)
                rw [hnil] at hdropeq
                cases hdropeq
              have hhead : (rcKeys.drop n).head? = some f.key := by rw [← hdropeq]; rfl
              have hw1 : "why1" ∈ rcKeys.take n :=
                rc_drop_capa n (List.mem_range.mpr (by omega)) f.key hkcapa hhead
              exact htake "why1" hw1
        · rcases h5 with hno | ⟨n, hn, hdropeq, htake⟩
          · left
            intro k hkrc
            rw [hqk1]
            intro hmem
            exact hno k hkrc (by rw [hqk0]; exact List.mem_cons_of_mem _ hmem)
          · rw [hqk0] at hdropeq
            have hn8 : n < 8 := by
              by_contra hge
              have hnil : rcKeys.drop n = [] :=
                List.drop_eq_nil_of_le (by simp [rcKeys]; omega)
              rw [hnil] at hdropeq
              cases hdropeq
            have hhead : (rcKeys.drop n).head? = some f.key := by rw [← hdropeq]; rfl
            right
            refine ⟨n + 1, by omega, ?_, ?_⟩
            · rw [hqk1]
              have htl := congrArg List.tail hdropeq
              simpa [List.tail_drop] using htl
            · intro k hk
              rw [List.take_succ] at hk
              rw [hA]
              rcases List.mem_append.mp hk with hk | hk
              · exact List.mem_append_left _ (htake k hk)
              · have hkf : k = f.key := by
                  rw [List.head?_drop] at hhead
                  rw [hhead] at hk
                  simpa using hk
                rw [hkf]
                exact List.mem_append_right _ (by simp)
        · intro hmem
          rw [hqk1] at hmem
          obtain ⟨m, hm2, hmeq⟩ := h6 (by
            rw [hqk0]
            exact List.mem_cons_of_mem _ hmem)
          rw [hqk0] at hmeq
          have hrest : rest.map FieldReq.key = basicKeys.drop (m + 1) := by
            have htl := congrArg List.tail hmeq
            simpa [List.tail_drop] using htl
          have hmem2 : "event_type" ∈ basicKeys.drop (m + 1) := hrest ▸ hmem
          rcases Nat.lt_or_ge m 2 with hm | hm
          · exact ⟨m + 1, by omega, by rw [hqk1]; exact hrest⟩
          · have hm22 : m = 2 := by omega
            rw [hm22] at hmem2
            exact absurd hmem2 (by decide)
      split
      · next hket =>
        have hrest : rest = [] := by
          obtain ⟨m, hm2, hmeq⟩ := h6 (hket ▸ hfq)
          rw [hqk0, hket] at hmeq
          interval_cases m
          · have hh := congrArg List.head? hmeq
            simp [basicKeys] at hh
          · have hh := congrArg List.head? hmeq
            simp [basicKeys] at hh
          · have htl := congrArg List.tail hmeq
            have hmap : List.map FieldReq.key rest = [] := by
              simpa [basicKeys] using htl
            exact List.map_eq_nil_iff.mp hmap
        split
        · next c3 heq =>
          refine inv_enqueue_branch_some _ c3 _ heq hp ?_ ?_
          · exact hinv1.2.2.2.1
          · exact hrest
        · exact ConvInv_of_eq _ _ rfl rfl rfl hinv1
      · exact inv_next_prompt _ hp hinv1

theorem inv_empty (c : Conversation) (hd : c.data = []) (hq : c.queue = [])
    (hp : c.pending_confirmations = []) : ConvInv c := by
  have hqk : queueKeys c = [] := by unfold queueKeys; rw [hq]; rfl
  have hdk : dataKeys c = [] := by unfold dataKeys; rw [hd]; rfl
  refine ⟨?_, ?_, ?_, ?_, ?_, ?_⟩
  · rw [hqk]; exact List.nodup_nil
  · intro k hk
    rw [hdk] at hk
    exact absurd hk (List.not_mem_nil k)
  · intro hpend
    exact absurd hp hpend
  · rintro ⟨k, hk, -⟩
    rw [hdk] at hk
    exact absurd hk (List.not_mem_nil k)
  · left
    intro k _
    rw [hqk]
    exact List.not_mem_nil k
  · intro hmem
    rw [hqk] at hmem
    exact absurd hmem (List.not_mem_nil _)


theorem inv_build_confirmation (c : Conversation) (incidents : List ExtractedIncident)
    (hq : c.queue = []) (hp : c.pending_confirmations = [])
    (hd : dataKeys c = ["description"]) :
    ConvInv (build_confirmation_message c incidents).1 := by
  unfold build_confirmation_message
  split
  · exact inv_setup_basic_flow _ hq hp hd
  · dsimp only
    split
    · refine ⟨?_, ?_, ?_, ?_, ?_, ?_⟩
      · exact (show (List.map FieldReq.key c.queue).Nodup by rw [hq]; exact List.nodup_nil)
      · intro k hk
        show k ∉ List.map FieldReq.key c.queue
        rw [hq]
        simp
      · intro hpend
        exact ⟨hd, hq⟩
      · rintro ⟨k, hk, hkcapa⟩
        have hk1 : k ∈ dataKeys c := hk
        rw [hd] at hk1
        have hk2 : k = "description" := by simpa using hk1
        rw [hk2] at hkcapa
        exact absurd hkcapa (by decide)
      · left
        intro k _
        show k ∉ List.map FieldReq.key c.queue
        rw [hq]
        simp
      · intro hmem
        have hmem2 : ("event_type" : String) ∈ List.map FieldReq.key c.queue := hmem
        rw [hq] at hmem2
        simp at hmem2
    · exact inv_setup_basic_flow { c with extracted_incidents := sortByConfDesc incidents } hq hp hd

theorem inv_process_initial_description (c : Conversation) (text : String)
    (hd : c.data = []) (hq : c.queue = []) (hp : c.pending_confirmations = []) :
    ConvInv (process_initial_description c text).1 := by
  unfold process_initial_description
  split
  · exact inv_empty c hd hq hp
  · exact inv_build_confirmation _ _ hq hp (by unfold dataKeys; rw [hd]; rfl)

/-- The step of `process_message` preserves the invariant. -/
theorem inv_process_message (c : Conversation) (t : String)
    (hInv : ConvInv c) : ConvInv (process_message c t).1 := by
  unfold process_message
  dsimp only
  split
  · next hcond =>
    have hd : c.data = [] := by
      have := hcond
      simp only [Bool.and_eq_true, decide_eq_true_eq] at this
      exact this.1
    have hq : c.queue = [] := by
      have := hcond
      simp only [Bool.and_eq_true, decide_eq_true_eq] at this
      exact this.2
    have hp : c.pending_confirmations = [] := by
      cases hpc : c.pending_confirmations with
      | nil => rfl
      | cons p rest =>
        have := (hInv.2.2.1 (by rw [hpc]; exact List.cons_ne_nil p rest)).1
        unfold dataKeys at this
        rw [hd] at this
        cases this
    exact inv_process_initial_description c _ hd hq hp
  · split
    · next hpend =>
      exact inv_process_confirmations c _ hInv (by simpa using hpend)
    · next hpend =>
      have hp : c.pending_confirmations = [] := by
        by_contra hne
        exact hpend (by simpa using hne)
      exact inv_process_regular_field c _ hp hInv

theorem inv_freshConv (u : String) : ConvInv (freshConv u) :=
  inv_empty (freshConv u) rfl rfl rfl

/-- Every reachable conversation satisfies the invariant; in particular the
keys already answered (in `data`) are disjoint from the keys still queued. -/
theorem Reach_inv (c : Conversation) (h : Reach c) : ConvInv c := by
  induction h with
  | init u => exact inv_freshConv u
  | step c t hc hf ih => exact inv_process_message c t ih

-- ---------------------------------------------------------------------------
-- Data keys grow monotonically along steps

theorem data_finalize (c : Conversation) : (finalize c).1.data = c.data := rfl

theorem data_finalize_or_continue (c : Conversation) :
    (finalize_or_continue c).1.data = c.data := by
  unfold finalize_or_continue
  dsimp only
  split
  · split <;> rfl
  · rfl

theorem data_next_prompt (c : Conversation) : (next_prompt c).1.data = c.data := by
  unfold next_prompt
  split
  · exact data_finalize_or_continue c
  · rfl

theorem data_setup_basic_flow (c : Conversation) :
    (setup_basic_flow c).1.data = c.data := by
  unfold setup_basic_flow
  exact data_next_prompt _

theorem data_enqueue_branch (c c3 : Conversation) (et : String)
    (h : enqueue_branch c et = some c3) : c3.data = c.data := by
  unfold enqueue_branch at h
  cases hbp : branchPrompts (pyStrip et) with
  | none => rw [hbp] at h; cases h
  | some l =>
    rw [hbp] at h
    replace h := Option.some.inj h
    rw [← h]

theorem data_setup_targeted_flow (c : Conversation) :
    (setup_targeted_flow c).1.data = c.data := by
  unfold setup_targeted_flow
  dsimp only
  split <;> split <;> split
  all_goals
    first
    | exact data_next_prompt _
    | (split
       · next c3 heq =>
           rw [data_next_prompt, data_enqueue_branch _ _ _ heq]
       · rfl)

theorem applyConfirm_mono (acc : List (String × String) × Option String) (kv : String × CVal)
    (k : String) (hk : k ∈ acc.1.map Prod.fst) :
    k ∈ (applyConfirm acc kv).1.map Prod.fst := by
  obtain ⟨d, et⟩ := acc
  dsimp only at hk
  unfold applyConfirm
  (try dsimp only)
  split <;> (try split) <;> (try dsimp only) <;>
    first
    | exact mem_keys_dictSet_of_mem _ _ _ _ hk
    | exact hk

theorem foldl_applyConfirm_mono (pcs : List (String × CVal)) :
    ∀ (d : List (String × String)) (et : Option String) (k : String),
      k ∈ d.map Prod.fst → k ∈ (pcs.foldl applyConfirm (d, et)).1.map Prod.fst := by
  induction pcs with
  | nil => intro d et k hk; exact hk
  | cons p rest ih =>
    intro d et k hk
    rw [List.foldl_cons]
    have step := applyConfirm_mono (d, et) p k hk
    simpa using ih (applyConfirm (d, et) p).1 (applyConfirm (d, et) p).2 k step

/-- Along a step the set of answered keys only grows. -/
theorem dataKeys_process_message_mono (c : Conversation) (t : String)
    (hInv : ConvInv c) :
    ∀ k, k ∈ dataKeys c → k ∈ dataKeys (process_message c t).1 := by
  intro k hk
  unfold process_message
  dsimp only
  split
  · next hcond =>
    have hd : c.data = [] := by
      simp only [Bool.and_eq_true, decide_eq_true_eq] at hcond
      exact hcond.1
    unfold dataKeys at hk
    rw [hd] at hk
    cases hk
  · split
    · next hpend =>
      have hpne : c.pending_confirmations ≠ [] := by simpa using hpend
      unfold process_confirmations
      split
      next d et heq =>
      dsimp only
      split
      · show k ∈ dataKeys (setup_targeted_flow _).1
        unfold dataKeys
        rw [data_setup_targeted_flow]
        have hfold := foldl_applyConfirm_mono c.pending_confirmations c.data c.event_type k hk
        rw [heq] at hfold
        exact hfold
      · split
        · show k ∈ dataKeys (setup_basic_flow _).1
          unfold dataKeys
          rw [data_setup_basic_flow]
          exact hk
        · split
          · show k ∈ dataKeys (setup_basic_flow _).1
            unfold dataKeys
            rw [data_setup_basic_flow]
            have hdk : dataKeys c = ["description"] := (hInv.2.2.1 hpne).1
            have hk2 : k = "description" := by
              rw [hdk] at hk
              simpa using hk
            rw [hk2]
            simp
          · exact hk
    · unfold process_regular_field
      cases hq : c.queue with
      | nil =>
        show k ∈ dataKeys (finalize_or_continue c).1
        unfold dataKeys
        rw [data_finalize_or_continue]
        exact hk
      | cons f rest =>
        dsimp only
        split
        · exact hk
        · split
          · split
            · next c3 heq =>
              show k ∈ dataKeys (next_prompt c3).1
              unfold dataKeys
              rw [data_next_prompt, data_enqueue_branch _ _ _ heq]
              exact mem_keys_dictSet_of_mem _ _ _ _ hk
            · exact mem_keys_dictSet_of_mem _ _ _ _ hk
          · show k ∈ dataKeys (next_prompt _).1
            unfold dataKeys
            rw [data_next_prompt]
            exact mem_keys_dictSet_of_mem _ _ _ _ hk

-- ---------------------------------------------------------------------------
-- Which field a reply asks for next

theorem make_prompt_next_expected (k p : String) :
    (make_prompt k p).next_expected = some k := by
  unfold make_prompt
  dsimp only
  split_ifs <;> rfl

theorem make_error_prompt_next_expected (k p : String) (v : Option String) :
    (make_error_prompt k p v).next_expected = some k := by
  unfold make_error_prompt
  exact make_prompt_next_expected _ _

theorem finalize_reply (c : Conversation) (r : Reply)
    (hr : (finalize c).2 = some r) : r.next_expected = none := by
  unfold finalize at hr
  replace hr := Option.some.inj hr
  rw [← hr]

theorem finalize_or_continue_reply (c : Conversation) (r : Reply) (hq : c.queue = [])
    (hr : (finalize_or_continue c).2 = some r) :
    r.next_expected = none ∨
      ∃ kq, r.next_expected = some kq ∧ kq ∈ queueKeys (finalize_or_continue c).1 := by
  cases hrc : has_root_cause_b c.data with
  | true =>
    rw [finalize_or_continue_finalize c (Or.inl hrc)] at hr
    exact Or.inl (finalize_reply _ r hr)
  | false =>
    cases hf : c.finished with
    | true =>
      rw [finalize_or_continue_finalize c (Or.inr hf)] at hr
      exact Or.inl (finalize_reply _ r hr)
    | false =>
      rw [finalize_or_continue_rc c hq hrc hf] at hr
      rw [finalize_or_continue_rc c hq hrc hf]
      replace hr := Option.some.inj hr
      right
      refine ⟨"why1", ?_, ?_⟩
      · rw [← hr]
        exact make_prompt_next_expected _ _
      · show ("why1" : String) ∈ queueKeys { c with queue := rcPrompts }
        rw [show queueKeys { c with queue := rcPrompts } = rcKeys from rcPrompts_keys]
        decide

theorem next_prompt_reply (c : Conversation) (r : Reply)
    (hr : (next_prompt c).2 = some r) :
    r.next_expected = none ∨
      ∃ kq, r.next_expected = some kq ∧ kq ∈ queueKeys (next_prompt c).1 := by
  unfold next_prompt at hr ⊢
  cases hq : c.queue with
  | nil =>
    rw [hq] at hr
    exact finalize_or_continue_reply c r hq hr
  | cons f rest =>
    rw [hq] at hr
    replace hr := Option.some.inj hr
    right
    refine ⟨f.key, ?_, ?_⟩
    · rw [← hr]
      exact make_prompt_next_expected _ _
    · show f.key ∈ queueKeys c
      unfold queueKeys
      rw [hq]
      exact List.mem_cons_self _ _

theorem setup_basic_flow_reply (c : Conversation) (r : Reply)
    (hr : (setup_basic_flow c).2 = some r) :
    r.next_expected = none ∨
      ∃ kq, r.next_expected = some kq ∧ kq ∈ queueKeys (setup_basic_flow c).1 := by
  unfold setup_basic_flow at hr ⊢
  exact next_prompt_reply _ r hr

theorem setup_targeted_flow_reply (c : Conversation) (r : Reply)
    (hr : (setup_targeted_flow c).2 = some r) :
    r.next_expected = none ∨
      ∃ kq, r.next_expected = some kq ∧ kq ∈ queueKeys (setup_targeted_flow c).1 := by
  unfold setup_targeted_flow at hr ⊢
  dsimp only at hr ⊢
  cases hW : hasKey c.data "when" <;> cases hWh : hasKey c.data "where" <;>
    simp only [hW, hWh, Bool.false_eq_true, if_true, if_false] at hr ⊢ <;>
    cases hT : optTruthy _ <;>
    simp only [hT, Bool.false_eq_true, if_true, if_false] at hr ⊢ <;>
    first
    | exact next_prompt_reply _ r hr
    | (split at hr
       · exact next_prompt_reply _ r hr
       · exfalso
         exact Option.noConfusion hr)

theorem build_confirmation_reply (c : Conversation) (incidents : List ExtractedIncident)
    (r : Reply) (hd : dataKeys c = ["description"])
    (hr : (build_confirmation_message c incidents).2 = some r) :
    r.next_expected = none ∨
      (r.next_expected = some "confirmation" ∧
        dataKeys (build_confirmation_message c incidents).1 = ["description"]) ∨
      ∃ kq, r.next_expected = some kq ∧
        kq ∈ queueKeys (build_confirmation_message c incidents).1 := by
  unfold build_confirmation_message at hr ⊢
  split at hr
  · next hinc =>
    rw [if_pos hinc]
    rcases setup_basic_flow_reply c r hr with h | h
    · exact Or.inl h
    · exact Or.inr (Or.inr h)
  · next hinc =>
    rw [if_neg hinc]
    dsimp only at hr ⊢
    split at hr
    · next hconf =>
      rw [if_pos hconf]
      replace hr := Option.some.inj hr
      right
      left
      constructor
      · rw [← hr]
      · exact hd
    · next hconf =>
      rw [if_neg hconf]
      rcases setup_basic_flow_reply _ r hr with h | h
      · exact Or.inl h
      · exact Or.inr (Or.inr h)

theorem process_initial_description_reply (c : Conversation) (text : String) (r : Reply)
    (hd : c.data = [])
    (hr : (process_initial_description c text).2 = some r) :
    r.next_expected = none ∨
      (r.next_expected = some "description" ∧ c.data = []) ∨
      (r.next_expected = some "confirmation" ∧
        dataKeys (process_initial_description c text).1 = ["description"]) ∨
      ∃ kq, r.next_expected = some kq ∧
        kq ∈ queueKeys (process_initial_description c text).1 := by
  unfold process_initial_description at hr ⊢
  split at hr
  · replace hr := Option.some.inj hr
    right
    left
    exact ⟨by rw [← hr], hd⟩
  · next hcond =>
    rw [if_neg hcond]
    have hd1 : dataKeys { c with
        data := dictSet c.data "description" text,
        extracted_incidents := extract_incidents text } = ["description"] := by
      unfold dataKeys
      rw [hd]
      rfl
    rcases build_confirmation_reply _ _ r hd1 hr with h | h | h
    · exact Or.inl h
    · exact Or.inr (Or.inr (Or.inl h))
    · exact Or.inr (Or.inr (Or.inr h))

theorem process_confirmations_reply (c : Conversation) (text : String) (r : Reply)
    (hd : dataKeys c = ["description"])
    (hr : (process_confirmations c text).2 = some r) :
    r.next_expected = none ∨
      (r.next_expected = some "confirmation" ∧
        dataKeys (process_confirmations c text).1 = ["description"]) ∨
      ∃ kq, r.next_expected = some kq ∧
        kq ∈ queueKeys (process_confirmations c text).1 := by
  unfold process_confirmations at hr ⊢
  split at hr
  next d et heq =>
  dsimp only at hr ⊢
  split at hr
  · next hresp =>
    rw [if_pos hresp]
    rcases setup_targeted_flow_reply _ r hr with h | h
    · exact Or.inl h
    · exact Or.inr (Or.inr h)
  · next hresp =>
    rw [if_neg hresp]
    split at hr
    · next hresp2 =>
      rw [if_pos hresp2]
      rcases setup_basic_flow_reply _ r hr with h | h
      · exact Or.inl h
      · exact Or.inr (Or.inr h)
    · next hresp2 =>
      rw [if_neg hresp2]
      split at hr
      · next hresp3 =>
        rw [if_pos hresp3]
        rcases setup_basic_flow_reply _ r hr with h | h
        · exact Or.inl h
        · exact Or.inr (Or.inr h)
      · next hresp3 =>
        rw [if_neg hresp3]
        replace hr := Option.some.inj hr
        right
        left
        exact ⟨by rw [← hr], hd⟩

theorem process_regular_field_reply (c : Conversation) (text : String) (r : Reply)
    (hr : (process_regular_field c text).2 = some r) :
    r.next_expected = none ∨
      ∃ kq, r.next_expected = some kq ∧
        kq ∈ queueKeys (process_regular_field c text).1 := by
  unfold process_regular_field at hr ⊢
  cases hq : c.queue with
  | nil =>
    rw [hq] at hr
    exact finalize_or_continue_reply c r hq hr
  | cons f rest =>
    rw [hq] at hr
    dsimp only at hr ⊢
    split at hr
    · next hcond =>
      rw [if_pos hcond]
      replace hr := Option.some.inj hr
      right
      refine ⟨f.key, by rw [← hr]; exact make_error_prompt_next_expected _ _ _, ?_⟩
      show f.key ∈ queueKeys c
      unfold queueKeys
      rw [hq]
      exact List.mem_cons_self _ _
    · next hcond =>
      rw [if_neg hcond]
      split at hr
      · next hket =>
        rw [if_pos hket]
        split at hr
        · exact next_prompt_reply _ r hr
        · exact absurd hr (by exact Option.noConfusion)
      · next hket =>
        rw [if_neg hket]
        exact next_prompt_reply _ r hr

theorem process_message_reply (c : Conversation) (t : String) (r : Reply) (hInv : ConvInv c)
    (hr : (process_message c t).2 = some r) :
    r.next_expected = none ∨
      (r.next_expected = some "description" ∧ c.data = []) ∨
      (r.next_expected = some "confirmation" ∧
        dataKeys (process_message c t).1 = ["description"]) ∨
      ∃ kq, r.next_expected = some kq ∧ kq ∈ queueKeys (process_message c t).1 := by
  unfold process_message at hr ⊢
  dsimp only at hr ⊢
  split at hr
  · next hcond =>
    rw [if_pos hcond]
    have hd : c.data = [] := by
      simp only [Bool.and_eq_true, decide_eq_true_eq] at hcond
      exact hcond.1
    exact process_initial_description_reply c _ r hd hr
  · next hcond =>
    rw [if_neg hcond]
    split at hr
    · next hpend =>
      rw [if_pos hpend]
      have hpne : c.pending_confirmations ≠ [] := by simpa using hpend
      have hd : dataKeys c = ["description"] := (hInv.2.2.1 hpne).1
      rcases process_confirmations_reply c _ r hd hr with h | h | h
      · exact Or.inl h
      · exact Or.inr (Or.inr (Or.inl h))
      · exact Or.inr (Or.inr (Or.inr h))
    · next hpend =>
      rw [if_neg hpend]
      rcases process_regular_field_reply c _ r hr with h | h
      · exact Or.inl h
      · exact Or.inr (Or.inr (Or.inr h))

theorem no_repeat_trace (c : Conversation) (hc : Reach c) (k : String)
    (hk : k ∈ dataKeys c) (ts : List String) :
    k ∉ queueKeys (run_messages c ts) ∧
      ∀ r : Reply, some r ∈ run_replies c ts → r.next_expected ≠ some k := by
  induction ts generalizing c with
  | nil =>
    constructor
    · exact (Reach_inv c hc).2.1 k hk
    · intro r hrr
      simp [run_replies] at hrr
  | cons t ts ih =>
    by_cases hf : c.finished = true
    · constructor
      · simp only [run_messages]
        rw [if_pos hf]
        exact (Reach_inv c hc).2.1 k hk
      · intro r hrr
        simp only [run_replies] at hrr
        rw [if_pos hf] at hrr
        simp at hrr
    · have hInv := Reach_inv c hc
      have hreach2 : Reach (process_message c t).1 :=
        Reach.step c t hc (by simpa using hf)
      have hk2 : k ∈ dataKeys (process_message c t).1 :=
        dataKeys_process_message_mono c t hInv k hk
      obtain ⟨ihq, ihr⟩ := ih (process_message c t).1 hreach2 hk2
      constructor
      · simp only [run_messages]
        rw [if_neg hf]
        exact ihq
      · intro r hrr
        simp only [run_replies] at hrr
        rw [if_neg hf] at hrr
        rcases List.mem_cons.mp hrr with heq | htail
        · intro hne
          rcases process_message_reply c t r hInv heq.symm with
            h | ⟨h, hd0⟩ | ⟨h, hpost⟩ | ⟨kq, hkq, hmem⟩
          · rw [h] at hne
            cases hne
          · rw [h] at hne
            have hkdesc : k = "description" := by
              have := Option.some.inj hne
              exact this.symm
            have : dataKeys c = [] := by
              unfold dataKeys
              rw [hd0]
              rfl
            rw [this] at hk
            cases hk
          · rw [h] at hne
            have hkconf : k = "confirmation" := (Option.some.inj hne).symm
            rw [hpost] at hk2
            rw [hkconf] at hk2
            exact absurd hk2 (by decide)
          · rw [hkq] at hne
            have hkqk : kq = k := Option.some.inj hne
            rw [hkqk] at hmem
            exact (Reach_inv _ hreach2).2.1 k hk2 hmem
        · exact ihr r htail

-- ---------------------------------------------------------------------------
-- Single-step equations for collecting states

theorem dictSet_eq_append (d : List (String × String)) (k v : String)
    (h : hasKey d k = false) : dictSet d k v = d ++ [(k, v)] := by
  unfold dictSet
  rw [show d.any (fun p => p.1 = k) = false from h]
  simp

theorem dictSet_ne_nil (d : List (String × String)) (k v : String) :
    dictSet d k v ≠ [] := by
  unfold dictSet
  split
  · next h =>
    intro hnil
    rw [List.map_eq_nil_iff] at hnil
    rw [hnil] at h
    cases h
  · simp

theorem hasKey_dictSet (d : List (String × String)) (k v k' : String) :
    hasKey (dictSet d k v) k' = (decide (k' = k) || hasKey d k') := by
  rw [Bool.eq_iff_iff, hasKey_eq_mem, Bool.or_eq_true, decide_eq_true_eq,
    hasKey_eq_mem, mem_dictSet_keys]
  tauto

theorem lookup_cons_eq (p : String × String) (l : List (String × String)) (k' : String)
    (h : k' = p.1) : List.lookup k' (p :: l) = some p.2 := by
  obtain ⟨a, b⟩ := p
  simp only [List.lookup]
  rw [show (k' == a) = true from beq_iff_eq.mpr h]

theorem lookup_cons_ne (p : String × String) (l : List (String × String)) (k' : String)
    (h : k' ≠ p.1) : List.lookup k' (p :: l) = List.lookup k' l := by
  obtain ⟨a, b⟩ := p
  simp only [List.lookup]
  rw [show (k' == a) = false from beq_eq_false_iff_ne.mpr h]

theorem lookup_overwrite (d : List (String × String)) (k v k' : String) (h : k' ≠ k) :
    List.lookup k' (d.map (fun p => if p.1 = k then (k, v) else p)) = List.lookup k' d := by
  induction d with
  | nil => rfl
  | cons p rest ih =>
    rw [List.map_cons]
    by_cases hp : p.1 = k
    · rw [if_pos hp, lookup_cons_ne (k, v) _ _ h,
        lookup_cons_ne p _ _ (by rw [hp]; exact h), ih]
    · rw [if_neg hp]
      by_cases hpk : k' = p.1
      · rw [lookup_cons_eq p _ _ hpk, lookup_cons_eq p _ _ hpk]
      · rw [lookup_cons_ne p _ _ hpk, lookup_cons_ne p _ _ hpk, ih]

theorem lookup_append_single (d : List (String × String)) (k v k' : String) (h : k' ≠ k) :
    List.lookup k' (d ++ [(k, v)]) = List.lookup k' d := by
  induction d with
  | nil =>
    rw [List.nil_append, lookup_cons_ne (k, v) _ _ h]
  | cons p rest ih =>
    rw [List.cons_append]
    by_cases hpk : k' = p.1
    · rw [lookup_cons_eq p _ _ hpk, lookup_cons_eq p _ _ hpk]
    · rw [lookup_cons_ne p _ _ hpk, lookup_cons_ne p _ _ hpk, ih]

theorem dictGet_dictSet_ne (d : List (String × String)) (k v k' : String) (h : k' ≠ k) :
    dictGet (dictSet d k v) k' = dictGet d k' := by
  unfold dictGet dictSet
  split
  · exact lookup_overwrite d k v k' h
  · exact lookup_append_single d k v k' h

theorem next_prompt_cons (c : Conversation) (f : FieldReq) (rest : List FieldReq)
    (hq : c.queue = f :: rest) :
    next_prompt c = (c, some (make_prompt f.key f.prompt)) := by
  unfold next_prompt
  rw [hq]

/-- One successful non-`event_type` answer in a collecting state pops the
head field and stores the processed value. -/
theorem pop_step (c : Conversation) (t : String) (f : FieldReq) (rest : List FieldReq)
    (hq : c.queue = f :: rest) (hp : c.pending_confirmations = [])
    (hv : validate_field f.key (pyStrip t) f.validator = true)
    (hk : f.key ≠ "event_type") :
    process_message c t =
      next_prompt { c with
        data := dictSet c.data f.key (process_field_value f.key (pyStrip t))
        queue := rest } := by
  unfold process_message
  dsimp only
  rw [if_neg (by
    simp only [Bool.and_eq_true, decide_eq_true_eq]
    rintro ⟨-, hq0⟩
    rw [hq] at hq0
    cases hq0)]
  rw [if_neg (by rw [hp]; simp)]
  unfold process_regular_field
  rw [hq]
  dsimp only
  rw [if_neg (by rw [hv]; simp)]
  rw [if_neg hk]

/-- The data map after answering the fields `fs` with the texts `ts` in
order (the stored value of each answer). -/
def collect (d : List (String × String)) : List FieldReq → List String → List (String × String)
  | f :: fs, t :: ts =>
    collect (dictSet d f.key (process_field_value f.key (pyStrip t))) fs ts
  | [], _ => d
  | _ :: _, [] => d

theorem run_messages_cons (c : Conversation) (t : String) (ts : List String)
    (h : c.finished = false) :
    run_messages c (t :: ts) = run_messages (process_message c t).1 ts := by
  rw [run_messages, if_neg (by rw [h]; exact Bool.false_ne_true)]

theorem run_messages_finished (c : Conversation) (ts : List String)
    (h : c.finished = true) : run_messages c ts = c := by
  cases ts with
  | nil => rfl
  | cons t ts => rw [run_messages, if_pos h]

theorem any_key_map_overwrite (p : String → Bool) (d : List (String × String))
    (k v : String) :
    (d.map (fun q => if q.1 = k then (k, v) else q)).any (fun kv => p kv.1) =
      d.any (fun kv => p kv.1) := by
  induction d with
  | nil => rfl
  | cons q rest ih =>
    rw [List.map_cons, List.any_cons, List.any_cons, ih]
    by_cases hqk : q.1 = k <;> simp [hqk]

theorem any_key_dictSet (p : String → Bool) (d : List (String × String)) (k v : String) :
    (dictSet d k v).any (fun kv => p kv.1) = (d.any (fun kv => p kv.1) || p k) := by
  unfold dictSet
  split
  · next h =>
    rw [any_key_map_overwrite]
    rcases List.any_eq_true.mp h with ⟨q, hqd, hqk⟩
    rw [decide_eq_true_eq] at hqk
    cases hpk : p k
    · rw [Bool.or_false]
    · have hT : d.any (fun kv => p kv.1) = true :=
        List.any_eq_true.mpr ⟨q, hqd, by rw [hqk]; exact hpk⟩
      rw [hT, Bool.true_or]
  · rw [List.any_append, List.any_cons, List.any_nil, Bool.or_false]

theorem has_root_cause_dictSet (d : List (String × String)) (k v : String) :
    has_root_cause_b (dictSet d k v) = (has_root_cause_b d || pyStartsWith k "why") := by
  exact any_key_dictSet (fun s => pyStartsWith s "why") d k v

/-- Running a block of answers that each pass validation through the head of
the queue, while the queue never empties: each answer pops one field and
stores the processed value. -/
theorem run_through (fs : List FieldReq) (ts : List String) (gs : List FieldReq)
    (c : Conversation)
    (hq : c.queue = fs ++ gs) (hp : c.pending_confirmations = [])
    (hd : c.data ≠ []) (hf : c.finished = false)
    (hlen : ts.length = fs.length)
    (hval : ∀ q ∈ List.zip fs ts, validate_field q.1.key (pyStrip q.2) q.1.validator = true)
    (hk : ∀ f ∈ fs, f.key ≠ "event_type")
    (hne : gs ≠ []) :
    run_messages c ts = { c with data := collect c.data fs ts, queue := gs } := by
  induction fs generalizing ts c with
  | nil =>
    have hts : ts = [] := by simpa using hlen
    rw [List.nil_append] at hq
    subst hts
    show c = { c with data := collect c.data [] [], queue := gs }
    cases c
    simp only at hq
    subst hq
    rfl
  | cons f fs ih =>
    cases ts with
    | nil => exact absurd hlen.symm (by simp)
    | cons t ts =>
      rw [run_messages_cons c t ts hf]
      have hv : validate_field f.key (pyStrip t) f.validator = true :=
        hval (f, t) (by rw [List.zip_cons_cons]; exact List.mem_cons_self _ _)
      have hkey : f.key ≠ "event_type" := hk f (List.mem_cons_self _ _)
      rw [pop_step c t f (fs ++ gs) (by rw [hq]; rfl) hp hv hkey]
      have hcons : ∃ g grest, fs ++ gs = g :: grest := by
        cases hfsgs : fs ++ gs with
        | nil =>
          rcases List.append_eq_nil.mp hfsgs with ⟨-, h2⟩
          exact absurd h2 hne
        | cons g grest => exact ⟨g, grest, rfl⟩
      rcases hcons with ⟨g, grest, hg⟩
      rw [show (next_prompt { c with
            data := dictSet c.data f.key (process_field_value f.key (pyStrip t))
            queue := fs ++ gs }).1 =
          { c with
            data := dictSet c.data f.key (process_field_value f.key (pyStrip t))
            queue := fs ++ gs } from by
        unfold next_prompt
        dsimp only
        rw [hg]]
      rw [ih ts { c with
            data := dictSet c.data f.key (process_field_value f.key (pyStrip t))
            queue := fs ++ gs } rfl hp (dictSet_ne_nil _ _ _) hf
          (by simpa using hlen)
          (by
            intro q hq2
            exact hval q (by rw [List.zip_cons_cons]; exact List.mem_cons_of_mem _ hq2))
          (fun f2 hf2 => hk f2 (List.mem_cons_of_mem _ hf2))]
      rw [collect]

theorem run_messages_append (c : Conversation) (l1 l2 : List String) :
    run_messages c (l1 ++ l2) = run_messages (run_messages c l1) l2 := by
  induction l1 generalizing c with
  | nil => rfl
  | cons t ts ih =>
    rw [List.cons_append]
    cases hf : c.finished
    · rw [run_messages_cons c t (ts ++ l2) hf, run_messages_cons c t ts hf, ih]
    · rw [run_messages_finished c (t :: (ts ++ l2)) hf,
        run_messages_finished c (t :: ts) hf, run_messages_finished c l2 hf]

theorem next_prompt_nil (c : Conversation) (hq : c.queue = []) :
    next_prompt c = finalize_or_continue c := by
  unfold next_prompt
  rw [hq]

theorem finalize_or_continue_enqueue (c : Conversation)
    (hrc : has_root_cause_b c.data = false) (hf : c.finished = false)
    (f : FieldReq) (rest : List FieldReq) (hq : c.queue ++ rcPrompts = f :: rest) :
    finalize_or_continue c =
      ({ c with queue := c.queue ++ rcPrompts }, some (make_prompt f.key f.prompt)) := by
  unfold finalize_or_continue
  dsimp only
  rw [hrc, if_pos (show (!false && !c.finished) = true by rw [hf]; decide)]
  unfold enqueue_root_cause_and_action
  dsimp only
  rw [hq]

theorem finalize_or_continue_done (c : Conversation)
    (hrc : has_root_cause_b c.data = true) :
    finalize_or_continue c = finalize c := by
  unfold finalize_or_continue
  dsimp only
  rw [hrc, if_neg (show ¬(!true && !c.finished) = true by simp)]

theorem finalize_fst_finished (c : Conversation) : (finalize c).1.finished = true := rfl

theorem dictGet_collect_ne (fs : List FieldReq) (d : List (String × String))
    (ts : List String) (k : String) (hk : ∀ f ∈ fs, f.key ≠ k) :
    dictGet (collect d fs ts) k = dictGet d k := by
  induction fs generalizing d ts with
  | nil => cases ts <;> rfl
  | cons f fs ih =>
    cases ts with
    | nil => rfl
    | cons t ts =>
      rw [collect, ih _ _ (fun g hg => hk g (List.mem_cons_of_mem _ hg)),
        dictGet_dictSet_ne _ _ _ _ (Ne.symm (hk f (List.mem_cons_self _ _)))]

theorem hasKey_collect_ne (fs : List FieldReq) (d : List (String × String))
    (ts : List String) (k : String) (hk : ∀ f ∈ fs, f.key ≠ k) :
    hasKey (collect d fs ts) k = hasKey d k := by
  induction fs generalizing d ts with
  | nil => cases ts <;> rfl
  | cons f fs ih =>
    cases ts with
    | nil => rfl
    | cons t ts =>
      rw [collect, ih _ _ (fun g hg => hk g (List.mem_cons_of_mem _ hg)), hasKey_dictSet,
        show (decide (k = f.key)) = false from
          decide_eq_false (Ne.symm (hk f (List.mem_cons_self _ _))),
        Bool.false_or]

theorem has_root_cause_collect (fs : List FieldReq) (d : List (String × String))
    (ts : List String) (hk : ∀ f ∈ fs, pyStartsWith f.key "why" = false) :
    has_root_cause_b (collect d fs ts) = has_root_cause_b d := by
  induction fs generalizing d ts with
  | nil => cases ts <;> rfl
  | cons f fs ih =>
    cases ts with
    | nil => rfl
    | cons t ts =>
      rw [collect, ih _ _ (fun g hg => hk g (List.mem_cons_of_mem _ hg)),
        has_root_cause_dictSet, hk f (List.mem_cons_self _ _), Bool.or_false]

/-- The state reached from a fresh conversation by describing the incident
and answering the three basic prompts with `Property Damage`. -/
def c8Start : Conversation :=
  run_messages (freshConv "u") ["a b c d", "2024-01-02", "dock", "Property Damage"]

def pdF1 : FieldReq := FieldReq.mk "property_description" (promptOf "property_description") (some "nonempty") none

def pdF2 : FieldReq := FieldReq.mk "property_cost" (promptOf "property_cost") (some "nonempty") none

def pdF3 : FieldReq := FieldReq.mk "property_corrective_action" (promptOf "property_corrective_action") (some "nonempty") none

def pdF4 : FieldReq := FieldReq.mk "property_enablon_confirm" (promptOf "property_enablon_confirm") (some "yesno") none

def pdF5 : FieldReq := FieldReq.mk "immediate_actions" (promptOf "immediate_actions") (some "nonempty") none

def pdF6 : FieldReq := FieldReq.mk "witnesses" (promptOf "witnesses") (some "nonempty") none

def rcF1 : FieldReq := FieldReq.mk "why1" ("🔍 **Root Cause Analysis (5 Whys)**\n\n" ++ promptOf "why1") (some "nonempty") none

def rcF2 : FieldReq := FieldReq.mk "why2" (promptOf "why2") (some "nonempty") none

def rcF3 : FieldReq := FieldReq.mk "why3" (promptOf "why3") (some "nonempty") none

def rcF4 : FieldReq := FieldReq.mk "why4" (promptOf "why4") (some "nonempty") none

def rcF5 : FieldReq := FieldReq.mk "why5" (promptOf "why5") (some "nonempty") none

def rcF6 : FieldReq := FieldReq.mk "capa_action" ("📋 **Corrective & Preventive Actions**\n\n" ++ promptOf "capa_action") (some "nonempty") none

def rcF7 : FieldReq := FieldReq.mk "capa_owner" (promptOf "capa_owner") (some "nonempty") none

def rcF8 : FieldReq := FieldReq.mk "capa_due" (promptOf "capa_due") (some "nonempty") none

theorem finalize_pd_summary (c : Conversation)
    (het : c.event_type = some "Property Damage")
    (hwhen : dictGet c.data "when" = some "2024-01-02")
    (hkwhen : hasKey c.data "when" = true)
    (hwhere : dictGet c.data "where" = some "dock")
    (hkwhere : hasKey c.data "where" = true)
    (hveh : hasKey c.data "veh_driver" = false) :
    ∃ r p, (finalize c).2 = some r ∧ r.done = true ∧ r.result = some p ∧
      p.summary = "**Event Type**: Property Damage\n**Date/Time**: 2024-01-02\n**Location**: dock" := by
  refine ⟨_, _, rfl, rfl, rfl, ?_⟩
  simp only [finalize, het, hwhen, hkwhen, hwhere, hkwhere, hveh, Option.some.injEq,
    ne_eq, not_false_eq_true, if_true, if_false, ite_true, ite_false, decide_False,
    Bool.false_and, Bool.false_eq_true]
  rw [if_pos (show ¬"Property Damage" = "" by decide),
    if_neg (show ¬((decide ("Property Damage" = "Injury/Illness") && hasKey c.data "inj_name") = true) by
      rw [show (decide ("Property Damage" = "Injury/Illness")) = false from by decide]
      simp)]
  decide

theorem collect_ne_nil (fs : List FieldReq) (d : List (String × String))
    (ts : List String) (hd : d ≠ []) : collect d fs ts ≠ [] := by
  induction fs generalizing d ts with
  | nil => cases ts <;> exact hd
  | cons f fs ih =>
    cases ts with
    | nil => exact hd
    | cons t ts => exact ih _ _ (dictSet_ne_nil _ _ _)

/-- C8: in the state where `when`, `where` and `event_type = Property Damage`
are already answered and the Property Damage branch is enqueued, any 14
further answers that each pass their field validation (the 6 branch fields,
then why1..why5, capa_action, capa_owner, capa_due) finalize the report:
the conversation is finished, the 14th reply has `done = true` and a result
payload with a non-empty summary, and after any fewer than 14 of these
answers the conversation is not yet finished. -/
theorem C8_scenario_property_damage
    (t1 t2 t3 t4 t5 t6 t7 t8 t9 t10 t11 t12 t13 t14 : String)
    (h1 : validate_field "property_description" (pyStrip t1) (some "nonempty") = true)
    (h2 : validate_field "property_cost" (pyStrip t2) (some "nonempty") = true)
    (h3 : validate_field "property_corrective_action" (pyStrip t3) (some "nonempty") = true)
    (h4 : validate_field "property_enablon_confirm" (pyStrip t4) (some "yesno") = true)
    (h5 : validate_field "immediate_actions" (pyStrip t5) (some "nonempty") = true)
    (h6 : validate_field "witnesses" (pyStrip t6) (some "nonempty") = true)
    (h7 : validate_field "why1" (pyStrip t7) (some "nonempty") = true)
    (h8 : validate_field "why2" (pyStrip t8) (some "nonempty") = true)
    (h9 : validate_field "why3" (pyStrip t9) (some "nonempty") = true)
    (h10 : validate_field "why4" (pyStrip t10) (some "nonempty") = true)
    (h11 : validate_field "why5" (pyStrip t11) (some "nonempty") = true)
    (h12 : validate_field "capa_action" (pyStrip t12) (some "nonempty") = true)
    (h13 : validate_field "capa_owner" (pyStrip t13) (some "nonempty") = true)
    (h14 : validate_field "capa_due" (pyStrip t14) (some "nonempty") = true) :
    (run_messages c8Start [t1, t2, t3, t4, t5, t6, t7, t8, t9, t10, t11, t12, t13, t14]).finished = true ∧
    (∃ r p, (process_message
        (run_messages c8Start [t1, t2, t3, t4, t5, t6, t7, t8, t9, t10, t11, t12, t13]) t14).2 =
          some r ∧ r.done = true ∧ r.result = some p ∧ p.summary ≠ "") ∧
    (∀ i, i < 14 → (run_messages c8Start
        (List.take i [t1, t2, t3, t4, t5, t6, t7, t8, t9, t10, t11, t12, t13, t14])).finished = false) := by
  have hq0 : c8Start.queue = [pdF1, pdF2, pdF3, pdF4, pdF5, pdF6] := by decide
  have hp0 : c8Start.pending_confirmations = [] := by decide
  have hf0 : c8Start.finished = false := by decide
  have hd0 : c8Start.data ≠ [] := by decide
  have hrc0 : has_root_cause_b c8Start.data = false := by decide
  have hA : run_messages c8Start [t1, t2, t3, t4, t5] =
      { c8Start with
        data := collect c8Start.data [pdF1, pdF2, pdF3, pdF4, pdF5] [t1, t2, t3, t4, t5]
        queue := [pdF6] } :=
    run_through [pdF1, pdF2, pdF3, pdF4, pdF5] [t1, t2, t3, t4, t5] [pdF6] c8Start
      (by rw [hq0]; rfl) hp0 hd0 hf0 rfl
      (by intro q hqz
          fin_cases hqz
          · exact h1
          · exact h2
          · exact h3
          · exact h4
          · exact h5)
      (by decide) (by decide)
  generalize hgA : ({ c8Start with
        data := collect c8Start.data [pdF1, pdF2, pdF3, pdF4, pdF5] [t1, t2, t3, t4, t5]
        queue := [pdF6] } : Conversation) = cA at hA
  have hqA : cA.queue = [pdF6] := by rw [← hgA]
  have hpA : cA.pending_confirmations = [] := by rw [← hgA]; exact hp0
  have hfA : cA.finished = false := by rw [← hgA]; exact hf0
  have hdataA : cA.data =
      collect c8Start.data [pdF1, pdF2, pdF3, pdF4, pdF5] [t1, t2, t3, t4, t5] := by
    rw [← hgA]
  have hdA : cA.data ≠ [] := by rw [hdataA]; exact collect_ne_nil _ _ _ hd0
  have hrcB : has_root_cause_b
      (dictSet cA.data "witnesses" (process_field_value "witnesses" (pyStrip t6))) = false := by
    rw [has_root_cause_dictSet, hdataA,
      has_root_cause_collect _ _ _ (by decide), hrc0]
    decide
  have hs6 : process_message cA t6 =
      ({ cA with
          data := dictSet cA.data "witnesses" (process_field_value "witnesses" (pyStrip t6))
          queue := rcPrompts },
        some (make_prompt rcF1.key rcF1.prompt)) := by
    rw [pop_step cA t6 pdF6 [] hqA hpA (by exact h6) (by decide),
      next_prompt_nil
        { cA with
          data := dictSet cA.data pdF6.key (process_field_value pdF6.key (pyStrip t6))
          queue := [] } rfl,
      finalize_or_continue_enqueue
        { cA with
          data := dictSet cA.data pdF6.key (process_field_value pdF6.key (pyStrip t6))
          queue := [] }
        hrcB hfA rcF1 [rcF2, rcF3, rcF4, rcF5, rcF6, rcF7, rcF8] rfl]
    rfl
  generalize hgB : ({ cA with
      data := dictSet cA.data "witnesses" (process_field_value "witnesses" (pyStrip t6))
      queue := rcPrompts } : Conversation) = cB at hs6
  have hB : run_messages c8Start [t1, t2, t3, t4, t5, t6] = cB := by
    rw [show ([t1, t2, t3, t4, t5, t6] : List String) = [t1, t2, t3, t4, t5] ++ [t6] from rfl,
      run_messages_append, hA, run_messages_cons cA t6 [] hfA, hs6]
    rfl
  have hqB : cB.queue = rcPrompts := by rw [← hgB]
  have hpB : cB.pending_confirmations = [] := by rw [← hgB]; exact hpA
  have hfB : cB.finished = false := by rw [← hgB]; exact hfA
  have hdataB : cB.data =
      dictSet cA.data "witnesses" (process_field_value "witnesses" (pyStrip t6)) := by
    rw [← hgB]
  have hdB : cB.data ≠ [] := by rw [hdataB]; exact dictSet_ne_nil _ _ _
  have hC : run_messages cB [t7, t8, t9, t10, t11, t12, t13] =
      { cB with
        data := collect cB.data [rcF1, rcF2, rcF3, rcF4, rcF5, rcF6, rcF7]
          [t7, t8, t9, t10, t11, t12, t13]
        queue := [rcF8] } :=
    run_through [rcF1, rcF2, rcF3, rcF4, rcF5, rcF6, rcF7]
      [t7, t8, t9, t10, t11, t12, t13] [rcF8] cB
      (by rw [hqB]; rfl) hpB hdB hfB rfl
      (by intro q hqz
          fin_cases hqz
          · exact h7
          · exact h8
          · exact h9
          · exact h10
          · exact h11
          · exact h12
          · exact h13)
      (by decide) (by decide)
  generalize hgC : ({ cB with
      data := collect cB.data [rcF1, rcF2, rcF3, rcF4, rcF5, rcF6, rcF7]
        [t7, t8, t9, t10, t11, t12, t13]
      queue := [rcF8] } : Conversation) = cC at hC
  have hqC : cC.queue = [rcF8] := by rw [← hgC]
  have hpC : cC.pending_confirmations = [] := by rw [← hgC]; exact hpB
  have hfC : cC.finished = false := by rw [← hgC]; exact hfB
  have hdataC : cC.data =
      collect cB.data [rcF1, rcF2, rcF3, rcF4, rcF5, rcF6, rcF7]
        [t7, t8, t9, t10, t11, t12, t13] := by
    rw [← hgC]
  have hdC : cC.data ≠ [] := by rw [hdataC]; exact collect_ne_nil _ _ _ hdB
  have hC13 : run_messages c8Start [t1, t2, t3, t4, t5, t6, t7, t8, t9, t10, t11, t12, t13] = cC := by
    rw [show ([t1, t2, t3, t4, t5, t6, t7, t8, t9, t10, t11, t12, t13] : List String) =
        [t1, t2, t3, t4, t5, t6] ++ [t7, t8, t9, t10, t11, t12, t13] from rfl,
      run_messages_append, hB, hC]
  have hrcD : has_root_cause_b
      (dictSet cC.data "capa_due" (process_field_value "capa_due" (pyStrip t14))) = true := by
    rw [has_root_cause_dictSet, hdataC]
    simp only [collect, rcF1, rcF2, rcF3, rcF4, rcF5, rcF6, rcF7]
    simp only [has_root_cause_dictSet]
    rw [show pyStartsWith "why1" "why" = true from by decide]
    simp
  have hs14 : process_message cC t14 =
      finalize { cC with
        data := dictSet cC.data "capa_due" (process_field_value "capa_due" (pyStrip t14))
        queue := [] } := by
    rw [pop_step cC t14 rcF8 [] hqC hpC (by exact h14) (by decide),
      next_prompt_nil
        { cC with
          data := dictSet cC.data rcF8.key (process_field_value rcF8.key (pyStrip t14))
          queue := [] } rfl,
      finalize_or_continue_done
        { cC with
          data := dictSet cC.data rcF8.key (process_field_value rcF8.key (pyStrip t14))
          queue := [] }
        hrcD]
    rfl
  have hD : run_messages c8Start [t1, t2, t3, t4, t5, t6, t7, t8, t9, t10, t11, t12, t13, t14] =
      (finalize { cC with
        data := dictSet cC.data "capa_due" (process_field_value "capa_due" (pyStrip t14))
        queue := [] }).1 := by
    rw [show ([t1, t2, t3, t4, t5, t6, t7, t8, t9, t10, t11, t12, t13, t14] : List String) =
        [t1, t2, t3, t4, t5, t6, t7, t8, t9, t10, t11, t12, t13] ++ [t14] from rfl,
      run_messages_append, hC13, run_messages_cons cC t14 [] hfC, hs14]
    rfl
  have het0 : c8Start.event_type = some "Property Damage" := by decide
  have hetA : cA.event_type = some "Property Damage" := by rw [← hgA]; exact het0
  have hetB : cB.event_type = some "Property Damage" := by rw [← hgB]; exact hetA
  have hetC : cC.event_type = some "Property Damage" := by rw [← hgC]; exact hetB
  have hwhenD : dictGet
      (dictSet cC.data "capa_due" (process_field_value "capa_due" (pyStrip t14))) "when" =
      some "2024-01-02" := by
    rw [dictGet_dictSet_ne, hdataC, dictGet_collect_ne, hdataB, dictGet_dictSet_ne,
      hdataA, dictGet_collect_ne]
    all_goals decide
  have hkwhenD : hasKey
      (dictSet cC.data "capa_due" (process_field_value "capa_due" (pyStrip t14))) "when" = true := by
    rw [hasKey_dictSet, hdataC, hasKey_collect_ne, hdataB, hasKey_dictSet,
      hdataA, hasKey_collect_ne]
    all_goals decide
  have hwhereD : dictGet
      (dictSet cC.data "capa_due" (process_field_value "capa_due" (pyStrip t14))) "where" =
      some "dock" := by
    rw [dictGet_dictSet_ne, hdataC, dictGet_collect_ne, hdataB, dictGet_dictSet_ne,
      hdataA, dictGet_collect_ne]
    all_goals decide
  have hkwhereD : hasKey
      (dictSet cC.data "capa_due" (process_field_value "capa_due" (pyStrip t14))) "where" = true := by
    rw [hasKey_dictSet, hdataC, hasKey_collect_ne, hdataB, hasKey_dictSet,
      hdataA, hasKey_collect_ne]
    all_goals decide
  have hvehD : hasKey
      (dictSet cC.data "capa_due" (process_field_value "capa_due" (pyStrip t14))) "veh_driver" =
      false := by
    rw [hasKey_dictSet, hdataC, hasKey_collect_ne, hdataB, hasKey_dictSet,
      hdataA, hasKey_collect_ne]
    all_goals decide
  refine ⟨?_, ?_, ?_⟩
  · rw [hD]
    exact finalize_fst_finished _
  · obtain ⟨r, p, hr1, hr2, hr3, hr4⟩ :=
      finalize_pd_summary
        { cC with
          data := dictSet cC.data "capa_due" (process_field_value "capa_due" (pyStrip t14))
          queue := [] }
        hetC hwhenD hkwhenD hwhereD hkwhereD hvehD
    refine ⟨r, p, ?_, hr2, hr3, ?_⟩
    · rw [hC13, hs14]
      exact hr1
    · rw [hr4]
      decide
  · intro i hi
    interval_cases i
    · exact hf0
    · rw [show List.take 1 [t1, t2, t3, t4, t5, t6, t7, t8, t9, t10, t11, t12, t13, t14] =
          [t1] from rfl,
        run_through [pdF1] [t1] [pdF2, pdF3, pdF4, pdF5, pdF6] c8Start
          (by rw [hq0]; rfl) hp0 hd0 hf0 rfl
          (by intro q hqz
              fin_cases hqz <;> first | exact h1 | exact h2 | exact h3 | exact h4 | exact h5)
          (by decide) (by decide)]
      exact hf0
    · rw [show List.take 2 [t1, t2, t3, t4, t5, t6, t7, t8, t9, t10, t11, t12, t13, t14] =
          [t1, t2] from rfl,
        run_through [pdF1, pdF2] [t1, t2] [pdF3, pdF4, pdF5, pdF6] c8Start
          (by rw [hq0]; rfl) hp0 hd0 hf0 rfl
          (by intro q hqz
              fin_cases hqz <;> first | exact h1 | exact h2 | exact h3 | exact h4 | exact h5)
          (by decide) (by decide)]
      exact hf0
    · rw [show List.take 3 [t1, t2, t3, t4, t5, t6, t7, t8, t9, t10, t11, t12, t13, t14] =
          [t1, t2, t3] from rfl,
        run_through [pdF1, pdF2, pdF3] [t1, t2, t3] [pdF4, pdF5, pdF6] c8Start
          (by rw [hq0]; rfl) hp0 hd0 hf0 rfl
          (by intro q hqz
              fin_cases hqz <;> first | exact h1 | exact h2 | exact h3 | exact h4 | exact h5)
          (by decide) (by decide)]
      exact hf0
    · rw [show List.take 4 [t1, t2, t3, t4, t5, t6, t7, t8, t9, t10, t11, t12, t13, t14] =
          [t1, t2, t3, t4] from rfl,
        run_through [pdF1, pdF2, pdF3, pdF4] [t1, t2, t3, t4] [pdF5, pdF6] c8Start
          (by rw [hq0]; rfl) hp0 hd0 hf0 rfl
          (by intro q hqz
              fin_cases hqz <;> first | exact h1 | exact h2 | exact h3 | exact h4 | exact h5)
          (by decide) (by decide)]
      exact hf0
    · rw [show List.take 5 [t1, t2, t3, t4, t5, t6, t7, t8, t9, t10, t11, t12, t13, t14] =
          [t1, t2, t3, t4, t5] from rfl, hA]
      exact hfA
    · rw [show List.take 6 [t1, t2, t3, t4, t5, t6, t7, t8, t9, t10, t11, t12, t13, t14] =
          [t1, t2, t3, t4, t5, t6] from rfl, hB]
      exact hfB
    · rw [show List.take 7 [t1, t2, t3, t4, t5, t6, t7, t8, t9, t10, t11, t12, t13, t14] =
          [t1, t2, t3, t4, t5, t6] ++ [t7] from rfl,
        run_messages_append, hB,
        run_through [rcF1] [t7] [rcF2, rcF3, rcF4, rcF5, rcF6, rcF7, rcF8] cB
          (by rw [hqB]; rfl) hpB hdB hfB rfl
          (by intro q hqz
              fin_cases hqz <;> first | exact h7 | exact h8 | exact h9 | exact h10 | exact h11 | exact h12 | exact h13)
          (by decide) (by decide)]
      exact hfB
    · rw [show List.take 8 [t1, t2, t3, t4, t5, t6, t7, t8, t9, t10, t11, t12, t13, t14] =
          [t1, t2, t3, t4, t5, t6] ++ [t7, t8] from rfl,
        run_messages_append, hB,
        run_through [rcF1, rcF2] [t7, t8] [rcF3, rcF4, rcF5, rcF6, rcF7, rcF8] cB
          (by rw [hqB]; rfl) hpB hdB hfB rfl
          (by intro q hqz
              fin_cases hqz <;> first | exact h7 | exact h8 | exact h9 | exact h10 | exact h11 | exact h12 | exact h13)
          (by decide) (by decide)]
      exact hfB
    · rw [show List.take 9 [t1, t2, t3, t4, t5, t6, t7, t8, t9, t10, t11, t12, t13, t14] =
          [t1, t2, t3, t4, t5, t6] ++ [t7, t8, t9] from rfl,
        run_messages_append, hB,
        run_through [rcF1, rcF2, rcF3] [t7, t8, t9] [rcF4, rcF5, rcF6, rcF7, rcF8] cB
          (by rw [hqB]; rfl) hpB hdB hfB rfl
          (by intro q hqz
              fin_cases hqz <;> first | exact h7 | exact h8 | exact h9 | exact h10 | exact h11 | exact h12 | exact h13)
          (by decide) (by decide)]
      exact hfB
    · rw [show List.take 10 [t1, t2, t3, t4, t5, t6, t7, t8, t9, t10, t11, t12, t13, t14] =
          [t1, t2, t3, t4, t5, t6] ++ [t7, t8, t9, t10] from rfl,
        run_messages_append, hB,
        run_through [rcF1, rcF2, rcF3, rcF4] [t7, t8, t9, t10] [rcF5, rcF6, rcF7, rcF8] cB
          (by rw [hqB]; rfl) hpB hdB hfB rfl
          (by intro q hqz
              fin_cases hqz <;> first | exact h7 | exact h8 | exact h9 | exact h10 | exact h11 | exact h12 | exact h13)
          (by decide) (by decide)]
      exact hfB
    · rw [show List.take 11 [t1, t2, t3, t4, t5, t6, t7, t8, t9, t10, t11, t12, t13, t14] =
          [t1, t2, t3, t4, t5, t6] ++ [t7, t8, t9, t10, t11] from rfl,
        run_messages_append, hB,
        run_through [rcF1, rcF2, rcF3, rcF4, rcF5] [t7, t8, t9, t10, t11] [rcF6, rcF7, rcF8] cB
          (by rw [hqB]; rfl) hpB hdB hfB rfl
          (by intro q hqz
              fin_cases hqz <;> first | exact h7 | exact h8 | exact h9 | exact h10 | exact h11 | exact h12 | exact h13)
          (by decide) (by decide)]
      exact hfB
    · rw [show List.take 12 [t1, t2, t3, t4, t5, t6, t7, t8, t9, t10, t11, t12, t13, t14] =
          [t1, t2, t3, t4, t5, t6] ++ [t7, t8, t9, t10, t11, t12] from rfl,
        run_messages_append, hB,
        run_through [rcF1, rcF2, rcF3, rcF4, rcF5, rcF6] [t7, t8, t9, t10, t11, t12] [rcF7, rcF8] cB
          (by rw [hqB]; rfl) hpB hdB hfB rfl
          (by intro q hqz
              fin_cases hqz <;> first | exact h7 | exact h8 | exact h9 | exact h10 | exact h11 | exact h12 | exact h13)
          (by decide) (by decide)]
      exact hfB
    · rw [show List.take 13 [t1, t2, t3, t4, t5, t6, t7, t8, t9, t10, t11, t12, t13, t14] =
          [t1, t2, t3, t4, t5, t6, t7, t8, t9, t10, t11, t12, t13] from rfl, hC13]
      exact hfC

theorem C8_scenario_property_damage_witness :
    (validate_field "property_description" (pyStrip "d1") (some "nonempty") = true) ∧
    (validate_field "property_cost" (pyStrip "c1") (some "nonempty") = true) ∧
    (validate_field "property_corrective_action" (pyStrip "a1") (some "nonempty") = true) ∧
    (validate_field "property_enablon_confirm" (pyStrip "yes") (some "yesno") = true) ∧
    (validate_field "immediate_actions" (pyStrip "i1") (some "nonempty") = true) ∧
    (validate_field "witnesses" (pyStrip "w1") (some "nonempty") = true) ∧
    (validate_field "why1" (pyStrip "x1") (some "nonempty") = true) ∧
    (validate_field "why2" (pyStrip "x2") (some "nonempty") = true) ∧
    (validate_field "why3" (pyStrip "x3") (some "nonempty") = true) ∧
    (validate_field "why4" (pyStrip "x4") (some "nonempty") = true) ∧
    (validate_field "why5" (pyStrip "x5") (some "nonempty") = true) ∧
    (validate_field "capa_action" (pyStrip "ca") (some "nonempty") = true) ∧
    (validate_field "capa_owner" (pyStrip "co") (some "nonempty") = true) ∧
    (validate_field "capa_due" (pyStrip "2024-02-01") (some "nonempty") = true) ∧
    ((run_messages c8Start ["d1", "c1", "a1", "yes", "i1", "w1", "x1", "x2", "x3",
        "x4", "x5", "ca", "co", "2024-02-01"]).finished = true ∧
      (∃ r p, (process_message (run_messages c8Start ["d1", "c1", "a1", "yes", "i1",
          "w1", "x1", "x2", "x3", "x4", "x5", "ca", "co"]) "2024-02-01").2 = some r ∧
        r.done = true ∧ r.result = some p ∧ p.summary ≠ "") ∧
      (∀ i, i < 14 → (run_messages c8Start (List.take i ["d1", "c1", "a1", "yes", "i1",
          "w1", "x1", "x2", "x3", "x4", "x5", "ca", "co", "2024-02-01"])).finished = false)) :=
  ⟨by decide, by decide, by decide, by decide, by decide, by decide, by decide,

    by decide, by decide, by decide, by decide, by decide, by decide, by decide,
    C8_scenario_property_damage "d1" "c1" "a1" "yes" "i1" "w1" "x1" "x2" "x3" "x4" "x5"
      "ca" "co" "2024-02-01" (by decide) (by decide) (by decide) (by decide) (by decide)
      (by decide) (by decide) (by decide) (by decide) (by decide) (by decide) (by decide)
      (by decide) (by decide)⟩

theorem make_prompt_fields (k p : String) :
    (make_prompt k p).reply = p ∧ (make_prompt k p).next_expected = some k ∧
      (make_prompt k p).done = false := by
  unfold make_prompt
  dsimp only
  refine ⟨?_, ?_, ?_⟩ <;> (repeat (first | rfl | split))

theorem make_error_prompt_fields (k p : String) (v : Option String) :
    (make_error_prompt k p v).next_expected = some k ∧
      (make_error_prompt k p v).done = false ∧
      ∃ err, (make_error_prompt k p v).reply = err ++ "\n\n" ++ p := by
  unfold make_error_prompt
  dsimp only
  refine ⟨(make_prompt_fields k _).2.1, (make_prompt_fields k _).2.2, ?_⟩
  rw [(make_prompt_fields k _).1]
  split
  · exact ⟨"⚠️ " ++ validator_msg (v.getD ""), rfl⟩
  · split
    · rename_i opts heq
      split
      · exact ⟨"⚠️ Please choose from: " ++ String.intercalate ", " opts, rfl⟩
      · exact ⟨"⚠️ Invalid input.",
          congrArg (fun s => s ++ p)
            (show ("⚠️ Invalid input.\n\n" : String) = "⚠️ Invalid input." ++ "\n\n" by decide)⟩
    · exact ⟨"⚠️ Invalid input.",
        congrArg (fun s => s ++ p)
          (show ("⚠️ Invalid input.\n\n" : String) = "⚠️ Invalid input." ++ "\n\n" by decide)⟩

/-- C1: in a collecting state (some data present, no pending confirmations)
with a non-empty queue, a message that fails the head field\x27s validation
leaves the conversation exactly as it was (queue, data, event type and the
finished flag included) and replies with the same field\x27s prompt prefixed by
an error message before an empty line. -/
theorem C1_validation_failure_frame (c : Conversation) (t : String) (f : FieldReq)
    (rest : List FieldReq)
    (hq : c.queue = f :: rest) (hp : c.pending_confirmations = [])
    (hd : c.data ≠ []) (hv : validate_field f.key (pyStrip t) f.validator = false) :
    (process_message c t).1 = c ∧
    ∃ r, (process_message c t).2 = some r ∧
      r.next_expected = some f.key ∧ r.done = false ∧
      ∃ err, r.reply = err ++ "\n\n" ++ f.prompt := by
  have hpm : process_message c t = (c, some (make_error_prompt f.key f.prompt f.validator)) := by
    unfold process_message
    dsimp only
    rw [if_neg (by
      simp only [Bool.and_eq_true, decide_eq_true_eq]
      rintro ⟨-, hq0⟩
      rw [hq] at hq0
      cases hq0)]
    rw [if_neg (by rw [hp]; simp)]
    unfold process_regular_field
    rw [hq]
    dsimp only
    rw [if_pos (by rw [hv]; decide)]
  rw [hpm]
  obtain ⟨hne, hdone, err, herr⟩ := make_error_prompt_fields f.key f.prompt f.validator
  exact ⟨rfl, make_error_prompt f.key f.prompt f.validator, rfl, hne, hdone, err, herr⟩

theorem C1_validation_failure_frame_witness :
    ((run_messages (freshConv "u") ["a b c d"]).queue =
      FieldReq.mk "when" (promptOf "when") (some "datetime") none ::
        [FieldReq.mk "where" (promptOf "where") (some "nonempty") none,
         FieldReq.mk "event_type" (promptOf "event_type") (some "nonempty") none]) ∧
    ((run_messages (freshConv "u") ["a b c d"]).pending_confirmations = []) ∧
    ((run_messages (freshConv "u") ["a b c d"]).data ≠ []) ∧
    (validate_field (FieldReq.mk "when" (promptOf "when") (some "datetime") none).key
      (pyStrip "zzz")
      (FieldReq.mk "when" (promptOf "when") (some "datetime") none).validator = false) ∧
    ((process_message (run_messages (freshConv "u") ["a b c d"]) "zzz").1 =
        run_messages (freshConv "u") ["a b c d"] ∧
      ∃ r, (process_message (run_messages (freshConv "u") ["a b c d"]) "zzz").2 = some r ∧
        r.next_expected = some (FieldReq.mk "when" (promptOf "when") (some "datetime") none).key ∧
        r.done = false ∧
        ∃ err, r.reply = err ++ "\n\n" ++
          (FieldReq.mk "when" (promptOf "when") (some "datetime") none).prompt) :=
  ⟨by decide, by decide, by decide, by decide,
    C1_validation_failure_frame (run_messages (freshConv "u") ["a b c d"]) "zzz"
      (FieldReq.mk "when" (promptOf "when") (some "datetime") none)
      [FieldReq.mk "where" (promptOf "where") (some "nonempty") none,
       FieldReq.mk "event_type" (promptOf "event_type") (some "nonempty") none]
      (by decide) (by decide) (by decide) (by decide)⟩

theorem Reach_run_messages (c : Conversation) (ts : List String) (hc : Reach c) :
    Reach (run_messages c ts) := by
  induction ts generalizing c with
  | nil => exact hc
  | cons t ts ih =>
    rw [run_messages]
    cases hf : c.finished
    · rw [if_neg Bool.false_ne_true]
      exact ih _ (Reach.step c t hc hf)
    · rw [if_pos rfl]
      exact hc

/-- C2: along any conversation run from a fresh conversation, a field key
that has entered the data map is never enqueued again and never prompted
again (no reply of the rest of the run names it as `next_expected`). -/
theorem C2_no_repeat (u : String) (ts1 ts2 : List String) (k : String)
    (hk : k ∈ dataKeys (run_messages (freshConv u) ts1)) :
    k ∉ queueKeys (run_messages (run_messages (freshConv u) ts1) ts2) ∧
    ∀ r : Reply, some r ∈ run_replies (run_messages (freshConv u) ts1) ts2 →
      r.next_expected ≠ some k :=
  no_repeat_trace _ (Reach_run_messages _ _ (Reach.init u)) k hk ts2

theorem C2_no_repeat_witness :
    ("description" ∈ dataKeys (run_messages (freshConv "u") ["a b c d"])) ∧
    ("description" ∉ queueKeys (run_messages (run_messages (freshConv "u") ["a b c d"])
        ["2024-01-02"]) ∧
      ∀ r : Reply, some r ∈ run_replies (run_messages (freshConv "u") ["a b c d"])
          ["2024-01-02"] → r.next_expected ≠ some "description") :=
  ⟨by decide, C2_no_repeat "u" ["a b c d"] ["2024-01-02"] "description" (by decide)⟩

theorem enqueue_branch_of_prompts (c : Conversation) (et : String) (ps : List FieldReq)
    (hstrip : pyStrip et = et) (h : branchPrompts et = some ps) :
    ∃ ps2 c', branchPrompts et = some ps2 ∧ enqueue_branch c et = some c' ∧
      c'.data = c.data ∧ c'.event_type = c.event_type ∧
      c'.queue = c.queue ++ ps2.filter (fun f => !hasKey c.data f.key) := by
  refine ⟨ps, { c with queue := c.queue ++ ps.filter (fun f => !hasKey c.data f.key) },
    h, ?_, rfl, rfl, rfl⟩
  unfold enqueue_branch
  rw [hstrip, h]
  rfl

/-- C3 (corrected lengths): each resolved event type enqueues its fixed
ordered field set minus the keys already present in data, but the sizes are
Injury/Illness 20, Vehicle 9, Environmental 9, Property Damage 6,
Security Concern 11 and Other 5 — and the Depot Event branch builder
produces no field set at all (its prompt lookups fail). -/
theorem C3_branch_field_sets :
    (∀ c : Conversation, ∀ et : String,
      et ∈ (["Injury/Illness", "Vehicle", "Environmental", "Property Damage",
        "Security Concern", "Other"] : List String) →
      ∃ ps c', branchPrompts et = some ps ∧ enqueue_branch c et = some c' ∧
        c'.data = c.data ∧ c'.event_type = c.event_type ∧
        c'.queue = c.queue ++ ps.filter (fun f => !hasKey c.data f.key)) ∧
    (branchPrompts "Injury/Illness").map List.length = some 20 ∧
    (branchPrompts "Vehicle").map List.length = some 9 ∧
    (branchPrompts "Environmental").map List.length = some 9 ∧
    (branchPrompts "Property Damage").map List.length = some 6 ∧
    (branchPrompts "Security Concern").map List.length = some 11 ∧
    (branchPrompts "Other").map List.length = some 5 ∧
    (∀ c : Conversation, enqueue_branch c "Depot Event" = none) := by
  refine ⟨?_, by decide, by decide, by decide, by decide, by decide, by decide, fun c => rfl⟩
  intro c et het
  fin_cases het <;> exact enqueue_branch_of_prompts c _ _ (by decide) rfl

theorem C3_counterexample :
    ((branchPrompts "Injury/Illness").map List.length ≠ some 17) ∧
    ((branchPrompts "Environmental").map List.length ≠ some 8) ∧
    ((enqueue_branch (freshConv "u") "Injury/Illness").map (fun c => c.queue.length) =
      some 20) ∧
    ((enqueue_branch (freshConv "u") "Depot Event") = none) := by decide

/-- C4 (corrected): there is no alias canonicalization. Answering the
`event_type` prompt with `forklift` is rejected by the choice check and
changes nothing, while the exact label `Vehicle` is stored and enqueues the
9-field vehicle branch. -/
theorem C4_no_alias_table :
    ((process_message (run_messages (freshConv "u") ["a b c d", "2024-01-02", "dock"])
        "forklift").1 = run_messages (freshConv "u") ["a b c d", "2024-01-02", "dock"]) ∧
    ((process_message (run_messages (freshConv "u") ["a b c d", "2024-01-02", "dock"])
        "forklift").1.event_type = none) ∧
    ((process_message (run_messages (freshConv "u") ["a b c d", "2024-01-02", "dock"])
        "Vehicle").1.event_type = some "Vehicle") ∧
    (dictGet (process_message (run_messages (freshConv "u") ["a b c d", "2024-01-02", "dock"])
        "Vehicle").1.data "event_type" = some "Vehicle") ∧
    ((process_message (run_messages (freshConv "u") ["a b c d", "2024-01-02", "dock"])
        "Vehicle").1.queue.length = 9) := by decide

theorem C4_counterexample :
    ((process_message (run_messages (freshConv "u") ["a b c d", "2024-01-02", "dock"])
        "forklift").1.event_type ≠ some "Vehicle") ∧
    (hasKey (process_message (run_messages (freshConv "u") ["a b c d", "2024-01-02", "dock"])
        "forklift").1.data "event_type" = false) ∧
    ((process_message (run_messages (freshConv "u") ["a b c d", "2024-01-02", "dock"])
        "forklift").1.queue.length = 1) ∧
    ((process_message (run_messages (freshConv "u") ["a b c d", "2024-01-02", "dock"])
        "forklift").2.map (fun r => r.next_expected) = some (some "event_type")) := by decide

/-- C5 (code bug): the `PROMPTS` table has no entry for the three depot
keys, so answering the `event_type` prompt with `Depot Event` hits a
`KeyError` in the branch builder: no reply is produced (the exception
escapes), while the state keeps the mutations made before the raise. -/
theorem C5_depot_prompts_missing :
    (PROMPTS.lookup "depot_description" = none) ∧
    (PROMPTS.lookup "depot_immediate_actions" = none) ∧
    (PROMPTS.lookup "depot_outcome_lessons" = none) ∧
    ((process_message (run_messages (freshConv "u") ["a b c d", "2024-01-02", "dock"])
        "Depot Event").2 = none) ∧
    ((process_message (run_messages (freshConv "u") ["a b c d", "2024-01-02", "dock"])
        "Depot Event").1.event_type = some "Depot Event") := by decide

theorem extract_incidents_types (text : String) :
    (extract_incidents text).map (fun i => i.type) = detect_incident_types (pyLower text) := by
  unfold extract_incidents
  dsimp only
  rw [List.map_map]
  have hty : ∀ a ∈ detect_incident_types (pyLower text),
      ((fun i => i.type) ∘ (fun ty =>
        let base : ExtractedIncident :=
          { type := ty
            people := extract_people text
            locations := extract_locations (pyLower text) }
        let inc :=
          if ty = "Injury/Illness" then
            { base with injuries := extract_injuries (pyLower text),
                        body_parts := extract_body_parts (pyLower text) }
          else if ty = "Environmental" then
            { base with chemicals := extract_chemicals (pyLower text) }
          else if ty = "Property Damage" || ty = "Vehicle" then
            { base with costs := extract_costs (pyLower text) }
          else base
        { inc with confidence := calculate_confidence inc })) a = id a := by
    intro a ha
    dsimp only [Function.comp, id]
    repeat (first | rfl | split)
  rw [List.map_congr_left hty, List.map_id]

/-- C6 (corrected): with keyword hits in more than one category the
extractor does return one candidate per category, but the controller does
not ask the user to disambiguate between them: it picks the top-confidence
candidate and proposes its type as the `event_type` pending confirmation,
asking only to confirm the guessed details. -/
theorem C6_multi_category_proposal :
    (∀ text : String,
      (extract_incidents text).map (fun i => i.type) = detect_incident_types (pyLower text)) ∧
    ((detect_incident_types (pyLower "hurt leak dock")).length = 2) ∧
    ((process_message (freshConv "u") "hurt leak dock").1.pending_confirmations.lookup
        "event_type" = some (CVal.s "Injury/Illness")) ∧
    ((process_message (freshConv "u") "hurt leak dock").2.map
        (fun r => (r.next_expected, r.options)) =
      some (some "confirmation", some ["Yes, correct", "Some corrections needed", "Start over"])) := by
  refine ⟨extract_incidents_types, by decide, by decide, by decide⟩

theorem C6_counterexample :
    ((detect_incident_types (pyLower "hurt leak dock")) = ["Injury/Illness", "Environmental"]) ∧
    ((extract_incidents "hurt leak dock").length = 2) ∧
    ((process_message (freshConv "u") "hurt leak dock").2.map (fun r => r.next_expected) =
      some (some "confirmation")) ∧
    ((process_message (freshConv "u") "hurt leak dock").1.pending_confirmations.map
        (fun p => p.1) = ["event_type", "people", "where"]) := by decide

/-- C7 (corrected): an `event_type` answer naming several canonical labels
is indeed rejected without advancing the queue, but the error is the generic
required-field message: it does not list the matching labels or mention
ambiguity. -/
theorem C7_generic_required_error :
    (validate_field "event_type" (pyStrip "injury and vehicle") (some "nonempty") = false) ∧
    ((process_message (run_messages (freshConv "u") ["a b c d", "2024-01-02", "dock"])
        "injury and vehicle").1 = run_messages (freshConv "u") ["a b c d", "2024-01-02", "dock"]) ∧
    ((process_message (run_messages (freshConv "u") ["a b c d", "2024-01-02", "dock"])
        "injury and vehicle").2.map (fun r => (r.reply, r.next_expected)) =
      some ("⚠️ This field is required.\n\nWhat type of event is this?", some "event_type")) := by
  decide

theorem C7_counterexample :
    ((process_message (run_messages (freshConv "u") ["a b c d", "2024-01-02", "dock"])
        "injury, vehicle").2.map (fun r => r.reply) =
      some "⚠️ This field is required.\n\nWhat type of event is this?") ∧
    (pyContains "⚠️ This field is required.\n\nWhat type of event is this?" "Injury" = false) ∧
    (pyContains "⚠️ This field is required.\n\nWhat type of event is this?" "Vehicle" = false) ∧
    (pyContains "⚠️ This field is required.\n\nWhat type of event is this?" "ambiguous" = false) ∧
    ((process_message (run_messages (freshConv "u") ["a b c d", "2024-01-02", "dock"])
        "injury, vehicle").1.queue.map (fun f => f.key) = ["event_type"]) := by decide

theorem lookupg_cons_eq {β : Type} (p : String × β) (l : List (String × β)) (k : String)
    (h : k = p.1) : List.lookup k (p :: l) = some p.2 := by
  obtain ⟨a, b⟩ := p
  simp only [List.lookup]
  rw [show (k == a) = true from beq_iff_eq.mpr h]

theorem lookupg_cons_ne {β : Type} (p : String × β) (l : List (String × β)) (k : String)
    (h : k ≠ p.1) : List.lookup k (p :: l) = List.lookup k l := by
  obtain ⟨a, b⟩ := p
  simp only [List.lookup]
  rw [show (k == a) = false from beq_eq_false_iff_ne.mpr h]

theorem fwSet_lookup_self (m : FWManager) (u : String) (s : FWSession) :
    (fwSet m u s).lookup u = some s := by
  unfold fwSet
  split
  · next h =>
    induction m with
    | nil => simp at h
    | cons p rest ih =>
      by_cases hp : p.1 = u
      · rw [List.map_cons, if_pos hp, lookupg_cons_eq (u, s) _ _ rfl]
      · rw [List.map_cons, if_neg hp,
          lookupg_cons_ne p _ _ (fun he => hp (he.symm))]
        refine ih ?_
        rcases List.any_eq_true.mp h with ⟨q, hq, hqu⟩
        rw [decide_eq_true_eq] at hqu
        cases hq with
        | head => exact absurd hqu hp
        | tail _ hq2 => exact List.any_eq_true.mpr ⟨q, hq2, by rw [hqu]; exact decide_eq_true rfl⟩
  · next h =>
    induction m with
    | nil => exact lookupg_cons_eq (u, s) _ _ rfl
    | cons p rest ih =>
      rw [List.any_cons, Bool.or_eq_true] at h
      push_neg at h
      rw [List.cons_append,
        lookupg_cons_ne p _ _ (fun he => h.1 (by rw [he]; exact decide_eq_true rfl))]
      exact ih (fun hr => h.2 hr)

theorem five_whys_answer_fst (m : FWManager) (u t : String) (s : FWSession)
    (hs : m.lookup u = some s) (hne : pyStrip t ≠ "") :
    (five_whys_answer m u t).1 =
      fwSet m u { s with whys := s.whys ++ [pyStrip t], current_why := s.current_why + 1 } := by
  unfold five_whys_answer
  rw [hs]
  (try dsimp only)
  rw [if_neg hne]
  (try dsimp only)
  split
  · unfold five_whys_complete_analysis
    rw [fwSet_lookup_self]
  · rfl

theorem run_answers_lookup (u : String) (ts : List String) (m : FWManager) (s : FWSession)
    (hs : m.lookup u = some s) :
    ∃ s2, (run_answers m u ts).lookup u = some s2 ∧
      s2.whys.length = s.whys.length + (ts.filter (fun x => pyStrip x ≠ "")).length := by
  induction ts generalizing m s with
  | nil => exact ⟨s, hs, by simp⟩
  | cons t ts ih =>
    rw [show run_answers m u (t :: ts) = run_answers (five_whys_answer m u t).1 u ts from rfl]
    by_cases hne : pyStrip t = ""
    · have hfst : (five_whys_answer m u t).1 = m := by
        unfold five_whys_answer
        rw [hs]
        dsimp only
        rw [if_pos hne]
      rw [hfst]
      obtain ⟨s2, h1, h2⟩ := ih m s hs
      refine ⟨s2, h1, ?_⟩
      rw [h2, List.filter_cons_of_neg (by simpa using hne)]
    · rw [five_whys_answer_fst m u t s hs hne]
      obtain ⟨s2, h1, h2⟩ :=
        ih (fwSet m u { s with whys := s.whys ++ [pyStrip t], current_why := s.current_why + 1 })
          { s with whys := s.whys ++ [pyStrip t], current_why := s.current_why + 1 }
          (fwSet_lookup_self _ _ _)
      refine ⟨s2, h1, ?_⟩
      rw [h2, List.filter_cons_of_pos (by simpa using hne)]
      rw [show ({ s with
          whys := s.whys ++ [pyStrip t]
          current_why := s.current_why + 1 } : FWSession).whys = s.whys ++ [pyStrip t] from rfl]
      simp only [List.length_append, List.length_cons, List.length_nil]
      omega

/-- C9: right after `start` the analysis is not complete, and after a run of
`answer` calls it is complete exactly when at least 5 of them had non-empty
text after stripping (blank answers append nothing and do not count). -/
theorem C9_five_whys_completion (u problem : String) (ts : List String) :
    five_whys_is_complete (five_whys_start [] u problem).1 u = false ∧
    (five_whys_is_complete (run_answers (five_whys_start [] u problem).1 u ts) u = true ↔
      5 ≤ (ts.filter (fun x => pyStrip x ≠ "")).length) := by
  constructor
  · unfold five_whys_is_complete
    rw [show ((five_whys_start [] u problem).1 : FWManager) =
        [(u, { problem := problem, whys := [], current_why := 1 })] from rfl,
      lookupg_cons_eq (u, ({ problem := problem, whys := [], current_why := 1 } : FWSession)) [] u rfl]
    rfl
  · obtain ⟨s2, h1, h2⟩ := run_answers_lookup u ts (five_whys_start [] u problem).1
      { problem := problem, whys := [], current_why := 1 }
      (lookupg_cons_eq (u, ({ problem := problem, whys := [], current_why := 1 } : FWSession)) [] u rfl)
    unfold five_whys_is_complete
    rw [h1]
    dsimp only
    rw [h2]
    dsimp only
    simp only [List.length_nil, Nat.zero_add, ge_iff_le, decide_eq_true_eq]

/-- C10: once a session is complete (five or more whys), a further `answer`
call with non-empty text still appends the stripped text: the list keeps
growing with every such call, without any cap, and the analysis stays
complete. -/
theorem C10_growth_past_completion (m : FWManager) (u t : String) (s : FWSession)
    (hs : five_whys_get m u = some s) (h5 : 5 ≤ s.whys.length) (ht : pyStrip t ≠ "") :
    five_whys_get (five_whys_answer m u t).1 u =
      some { s with whys := s.whys ++ [pyStrip t], current_why := s.current_why + 1 } ∧
    five_whys_is_complete (five_whys_answer m u t).1 u = true ∧
    ∀ ts : List String, ∃ s2,
      five_whys_get (run_answers (five_whys_answer m u t).1 u ts) u = some s2 ∧
      s2.whys.length = s.whys.length + 1 + (ts.filter (fun x => pyStrip x ≠ "")).length ∧
      five_whys_is_complete (run_answers (five_whys_answer m u t).1 u ts) u = true := by
  have hfst := five_whys_answer_fst m u t s hs ht
  have hlook : ((five_whys_answer m u t).1).lookup u =
      some { s with whys := s.whys ++ [pyStrip t], current_why := s.current_why + 1 } := by
    rw [hfst]
    exact fwSet_lookup_self _ _ _
  have hwhys : ({ s with
      whys := s.whys ++ [pyStrip t]
      current_why := s.current_why + 1 } : FWSession).whys = s.whys ++ [pyStrip t] := rfl
  refine ⟨hlook, ?_, ?_⟩
  · unfold five_whys_is_complete
    rw [hlook]
    dsimp only
    rw [decide_eq_true_eq]
    simp only [List.length_append, List.length_cons, List.length_nil, ge_iff_le]
    omega
  · intro ts
    obtain ⟨s2, h1, h2⟩ := run_answers_lookup u ts _ _ hlook
    refine ⟨s2, h1, ?_, ?_⟩
    · rw [h2, hwhys]
      simp only [List.length_append, List.length_cons, List.length_nil]
    · unfold five_whys_is_complete
      rw [h1]
      dsimp only
      rw [decide_eq_true_eq]
      rw [h2, hwhys]
      simp only [List.length_append, List.length_cons, List.length_nil, ge_iff_le]
      omega

theorem C10_growth_past_completion_witness :
    (five_whys_get [("u", { problem := "p", whys := ["a", "b", "c", "d", "e"], current_why := 6 })]
      "u" = some { problem := "p", whys := ["a", "b", "c", "d", "e"], current_why := 6 }) ∧
    (5 ≤ (FWSession.mk "p" ["a", "b", "c", "d", "e"] 6).whys.length) ∧
    (pyStrip "f" ≠ "") ∧
    (five_whys_get (five_whys_answer
        [("u", { problem := "p", whys := ["a", "b", "c", "d", "e"], current_why := 6 })] "u" "f").1
        "u" =
      some { problem := "p", whys := ["a", "b", "c", "d", "e"] ++ [pyStrip "f"],
             current_why := 6 + 1 } ∧
    five_whys_is_complete (five_whys_answer
        [("u", { problem := "p", whys := ["a", "b", "c", "d", "e"], current_why := 6 })] "u" "f").1
        "u" = true ∧
    ∀ ts : List String, ∃ s2,
      five_whys_get (run_answers (five_whys_answer
          [("u", { problem := "p", whys := ["a", "b", "c", "d", "e"], current_why := 6 })]
          "u" "f").1 "u" ts) "u" = some s2 ∧
      s2.whys.length = (FWSession.mk "p" ["a", "b", "c", "d", "e"] 6).whys.length + 1 +
        (ts.filter (fun x => pyStrip x ≠ "")).length ∧
      five_whys_is_complete (run_answers (five_whys_answer
          [("u", { problem := "p", whys := ["a", "b", "c", "d", "e"], current_why := 6 })]
          "u" "f").1 "u" ts) "u" = true) :=
  ⟨by decide, by decide, by decide,
    C10_growth_past_completion
      [("u", { problem := "p", whys := ["a", "b", "c", "d", "e"], current_why := 6 })] "u" "f"
      { problem := "p", whys := ["a", "b", "c", "d", "e"], current_why := 6 }
      (by decide) (by decide) (by decide)⟩
